import Mathlib

/-!
Verification of the FPL squad-selection engine.

Shallow embedding of the scoring model (`squad_optimizer_with_history.py`),
the ILP constraint systems (`squad_optimizer.py`, `squad_optimizer_with_history.py`),
the lineup selector (`select_starting_eleven`, `optimize_starting_xi` /
`_order_bench`), the `Squad` data model (`models.py`) and the fixture analyzer
(`player_analyzer.py`).  Python floats are modelled as rationals; dictionaries
with optional keys are modelled as `Option` fields.
-/

namespace FPL

/-- A player record (`models.py` `Player`); only the fields read by the
embedded functions are kept.  `elementType` is 1=GK, 2=DEF, 3=MID, 4=FWD;
`nowCost` is the price in tenths of a million. -/
structure Player where
  id : ℤ
  webName : String
  team : ℤ
  elementType : ℤ
  nowCost : ℤ
  totalPoints : ℤ
  pointsPerGame : ℚ
  selectedByPercent : ℚ
  form : ℚ
  minutes : ℤ
  chanceOfPlayingThisRound : Option ℤ
  deriving DecidableEq, Repr

/-- `Player.price` property: `now_cost / 10`. -/
def Player.price (p : Player) : ℚ := (p.nowCost : ℚ) / 10

/-- One entry of the element-summary `history_past` list (a past season). -/
structure PastSeason where
  totalPoints : ℤ
  minutes : ℤ
  penaltiesScored : ℤ
  penaltiesMissed : ℤ
  deriving DecidableEq, Repr

/-- An element-summary response: the `history_past` key may be absent. -/
structure History where
  historyPast : Option (List PastSeason)
  deriving DecidableEq, Repr

/-- A fixture record as read by the fixture scorers. -/
structure FixtureData where
  teamH : ℤ
  teamA : ℤ
  finished : Bool
  teamHDifficulty : ℤ
  teamADifficulty : ℤ
  deriving DecidableEq, Repr

/-- Python `l[-n:]`. -/
def lastN {α : Type} (n : ℕ) (l : List α) : List α := l.drop (l.length - n)

/-! ### Historical score (`_calculate_historical_score`, with-history variant) -/

/-- The recency multiplier `1.2 - (0.4 * i / max(num_seasons - 1, 1))` applied
at loop index `i` over `past_seasons[-3:]` (chronological order, oldest first). -/
def recencyMultiplier (i : ℕ) (numSeasons : ℕ) : ℚ :=
  1.2 - (0.4 * (i : ℚ) / (max (numSeasons - 1) 1 : ℕ))

/-- State threaded through the per-season loop:
(weighted points-per-90 sum, total weight, total minutes analyzed, injury flag). -/
structure HistAcc where
  weightedPts90 : ℚ
  totalWeight : ℚ
  totalMinutes : ℤ
  injuryProne : Bool

/-- One iteration of the season loop of `_calculate_historical_score`. -/
def histStep (numSeasons : ℕ) (acc : HistAcc) (is : ℕ × PastSeason) : HistAcc :=
  let i := is.1
  let season := is.2
  if season.minutes < 180 then acc
  else
    let pts90 : ℚ :=
      if season.minutes > 0 then ((season.totalPoints : ℚ) / (season.minutes : ℚ)) * 90 else 0
    let minutesWeight : ℚ := min ((season.minutes : ℚ) / 3420) 1
    let seasonWeight := minutesWeight * recencyMultiplier i numSeasons
    { weightedPts90 := acc.weightedPts90 + pts90 * seasonWeight
      totalWeight := acc.totalWeight + seasonWeight
      totalMinutes := acc.totalMinutes + season.minutes
      injuryProne := acc.injuryProne || (i == 0 && season.minutes < 2000) }

/-- Best season total over seasons with more than 1800 minutes (reality check). -/
def bestSeasonTotal (seasons : List PastSeason) : ℤ :=
  seasons.foldl (fun best s => if s.minutes > 1800 then max best s.totalPoints else best) 0

/-- The monotonic step function mapping projected season points to 0..100. -/
def projectedToBase (x : ℚ) : ℚ :=
  if x ≥ 250 then 100
  else if x ≥ 200 then 75 + (x - 200) * 0.3
  else if x ≥ 170 then 60 + (x - 170) * 0.5
  else if x ≥ 140 then 45 + (x - 140) * 0.5
  else if x ≥ 110 then 30 + (x - 110) * 0.5
  else if x ≥ 80 then 15 + (x - 80) * 0.5
  else x * 0.1875

/-- The body of `_calculate_historical_score` past the early returns: the
weighted points-per-90 loop over the last three seasons, the small-sample
penalty, the projection to 34 games, the injury discount, the best-season
reality check, the step-function mapping and the final cap at 100 (or the
unclamped `total_points * 2.5` fallback when no season carried weight). -/
def historicalScoreMain (p : Player) (pastSeasons : List PastSeason) : ℚ :=
  let seasonsToConsider := lastN 3 pastSeasons
  let numSeasons := seasonsToConsider.length
  let acc := seasonsToConsider.enum.foldl (histStep numSeasons)
    ⟨0, 0, 0, false⟩
  if acc.totalWeight > 0 then
    let finalPts90 := acc.weightedPts90 / acc.totalWeight
    let finalPts90 :=
      if acc.totalMinutes < 900 then finalPts90 * ((acc.totalMinutes : ℚ) / 900)
      else finalPts90
    let projected := finalPts90 * 34
    let projected := if acc.injuryProne then projected * 0.9 else projected
    let best := bestSeasonTotal seasonsToConsider
    let projected :=
      if best > 0 ∧ projected > (best : ℚ) * 1.2 then
        (best : ℚ) * 0.6 + projected * 0.4
      else projected
    min (projectedToBase projected) 100
  else (p.totalPoints : ℚ) * 2.5

/-- `SquadOptimizerWithHistory._calculate_historical_score`. -/
def historicalScore (p : Player) (history : Option History) : ℚ :=
  match history with
  | none => min ((p.totalPoints : ℚ) * 0.5) 10
  | some h =>
    match h.historyPast with
    | none => min ((p.totalPoints : ℚ) * 0.5) 10
    | some pastSeasons =>
      if pastSeasons.isEmpty then min ((p.totalPoints : ℚ) * 0.5) 10
      else historicalScoreMain p pastSeasons

/-! ### Form score (`_calculate_form_score`) -/

/-- `SquadOptimizerWithHistory._calculate_form_score`; the transfer counts come
from the raw bootstrap dict (`transfers_in_event`, `transfers_out_event`). -/
def formScore (p : Player) (transfersInEvent transfersOutEvent : ℤ) : ℚ :=
  let form := p.form
  let ppg := if p.pointsPerGame > 0 then p.pointsPerGame else form
  let transfersBalance : ℚ := ((transfersInEvent - transfersOutEvent : ℤ) : ℚ)
  let transferMomentum := min (max (transfersBalance / 100000) (-1)) 1
  min (form * 10 + ppg * 5 + transferMomentum * 10) 100

/-! ### Fixture scores -/

/-- The unfinished fixtures of the player's team (shared filter of both
fixture scorers). -/
def teamFixtures (p : Player) (fixtures : List FixtureData) : List FixtureData :=
  fixtures.filter (fun f => (f.teamH == p.team || f.teamA == p.team) && !f.finished)

/-- `SquadOptimizerWithHistory._calculate_fixture_score`. -/
def fixtureScore (p : Player) (fixtures : List FixtureData) : ℚ :=
  let tf := (teamFixtures p fixtures).take 5
  if tf.isEmpty then 50
  else
    let totalDifficulty := tf.foldl
      (fun acc f =>
        if f.teamH == p.team then acc + (6 - (f.teamHDifficulty : ℚ)) * 1.1
        else acc + (6 - (f.teamADifficulty : ℚ)) * 0.9) 0
    (totalDifficulty / (tf.length : ℚ)) * 20

/-- `PlayerAnalyzer._calculate_fixture_difficulty` (neutral 3.0 when the team
has no unfinished fixtures). -/
def fixtureDifficulty (p : Player) (fixtures : List FixtureData) (nextN : ℕ) : ℚ :=
  let tf := (teamFixtures p fixtures).take nextN
  if tf.isEmpty then 3
  else
    (tf.map (fun f =>
      if f.teamH == p.team then (f.teamHDifficulty : ℚ) else (f.teamADifficulty : ℚ))).sum
      / (tf.length : ℚ)

/-! ### Value, ownership, expected-stats scores -/

/-- `SquadOptimizerWithHistory._calculate_value_score`. -/
def valueScore (p : Player) (history : Option History) : ℚ :=
  let lastSeasonPoints : ℤ :=
    match history with
    | some h =>
      match h.historyPast with
      | some past =>
        match past.getLast? with
        | some s => s.totalPoints
        | none => 0
      | none => 0
    | none => 0
  let expectedPoints : ℚ :=
    if lastSeasonPoints > 0 then
      (lastSeasonPoints : ℚ) * 0.8 + (p.totalPoints : ℚ) * 20 * 0.2
    else (p.totalPoints : ℚ) * 20
  let ppm := if p.price > 0 then expectedPoints / p.price else 0
  min (ppm * 5) 100

/-- `SquadOptimizerWithHistory._calculate_ownership_score`. -/
def ownershipScore (p : Player) : ℚ :=
  if p.selectedByPercent < 5 ∧ p.form > 5 then 60
  else if p.selectedByPercent < 10 ∧ p.form > 4 then 40
  else if p.selectedByPercent < 20 then 30
  else if p.selectedByPercent > 40 then 10
  else 20

/-- `SquadOptimizerWithHistory._calculate_expected_score`; the expected-stat
fields come from the raw bootstrap dict with missing values read as 0. -/
def expectedScore (p : Player) (xg xa xgc : ℚ) : ℚ :=
  let minutes : ℤ := max p.minutes 1
  let xg90 : ℚ := if minutes > 0 then xg / (minutes : ℚ) * 90 else 0
  let xa90 : ℚ := if minutes > 0 then xa / (minutes : ℚ) * 90 else 0
  let score : ℚ :=
    if p.elementType == 4 then xg90 * 100 + xa90 * 50
    else if p.elementType == 3 then xg90 * 80 + xa90 * 60
    else if p.elementType == 2 then
      xg90 * 60 + xa90 * 40 + (max 0 (100 - xgc * 10)) * 0.3
    else max 0 (50 - xgc * 10)
  min score 100

/-! ### Set-piece score (`set_piece_takers.py` + `_calculate_set_piece_score`) -/

/-- `SetPieceTakers.PENALTY_TAKERS['primary']` (2025/26 static table). -/
def penaltyTakersPrimary : List String :=
  ["Haaland", "Palmer", "M.Salah", "Saka", "Bruno Fernandes", "Raúl",
   "Wood", "Mateta", "Ndiaye", "Paqueta", "Wissa", "Watkins"]

/-- `SetPieceTakers.PENALTY_TAKERS['secondary']` (empty this season). -/
def penaltyTakersSecondary : List String := []

/-- `SetPieceTakers.FREE_KICK_TAKERS['primary']`. -/
def freeKickTakersPrimary : List String :=
  ["Ward-Prowse", "Trippier", "Digne", "Bruno Fernandes", "Ødegaard"]

/-- `SetPieceTakers.FREE_KICK_TAKERS['secondary']`. -/
def freeKickTakersSecondary : List String :=
  ["Saka", "Palmer", "M.Salah", "Pereira"]

/-- `SetPieceTakers.CORNER_SPECIALISTS`. -/
def cornerSpecialists : List String :=
  ["Trippier", "Saka", "Ødegaard", "Palmer", "Ward-Prowse"]

/-- `SetPieceTakers.is_penalty_taker`. -/
def isPenaltyTaker (name : String) (primaryOnly : Bool) : Bool :=
  if penaltyTakersPrimary.contains name then true
  else if !primaryOnly && penaltyTakersSecondary.contains name then true
  else false

/-- `SetPieceTakers.get_set_piece_score` (0..25 scale per its docstring). -/
def getSetPieceScore (name : String) : ℚ :=
  (if penaltyTakersPrimary.contains name then 20
   else if penaltyTakersSecondary.contains name then 10 else 0) +
  (if freeKickTakersPrimary.contains name then 10
   else if freeKickTakersSecondary.contains name then 5 else 0) +
  (if cornerSpecialists.contains name then 3 else 0)

/-- `SetPieceTakers.analyze_historical_set_pieces`, restricted to the two
penalty fields actually read by the caller (taken from the most recent past
season, defaulting to 0). -/
def historicalPenalties (h : History) : ℤ × ℤ :=
  match h.historyPast with
  | some past =>
    match past.getLast? with
    | some lastSeason => (lastSeason.penaltiesScored, lastSeason.penaltiesMissed)
    | none => (0, 0)
  | none => (0, 0)

/-- `SquadOptimizerWithHistory._calculate_set_piece_score`. -/
def setPieceScore (p : Player) (history : Option History) : ℚ :=
  let base := getSetPieceScore p.webName
  let base :=
    match history with
    | some h =>
      let pen := (historicalPenalties h).1 + (historicalPenalties h).2
      if pen ≥ 5 then max base 20
      else if pen ≥ 2 then max base 10
      else base
    | none => base
  let base :=
    if p.elementType == 1 then 0
    else if p.elementType == 2 then (if base > 0 then base * 1.2 else base)
    else if p.elementType == 3 then base
    else (if isPenaltyTaker p.webName true then base * 1.3 else base)
  min (base * 4) 100

/-! ### Weighted total (`_calculate_player_scores`) -/

/-- The weight vector of `SquadOptimizerWithHistory` (one rational per
recognized sub-score key). -/
structure Weights where
  historical : ℚ
  form : ℚ
  fixtures : ℚ
  value : ℚ
  ownership : ℚ
  expected : ℚ
  setPieces : ℚ
  deriving DecidableEq, Repr

/-- The default weights set in `SquadOptimizerWithHistory.__init__`. -/
def defaultWeights : Weights := ⟨0.50, 0.05, 0.15, 0.10, 0, 0.10, 0.10⟩

/-- The seven sub-scores of one player for one optimization run. -/
structure SubScores where
  historical : ℚ
  form : ℚ
  fixtures : ℚ
  value : ℚ
  ownership : ℚ
  expected : ℚ
  setPieces : ℚ
  deriving DecidableEq, Repr

/-- The weighted combination computed in `_calculate_player_scores`:
`total_score = Σ weight[k] * subscore[k]` written out over the seven keys,
exactly as in the source. -/
def totalScore (w : Weights) (s : SubScores) : ℚ :=
  w.historical * s.historical +
  w.form * s.form +
  w.fixtures * s.fixtures +
  w.value * s.value +
  w.ownership * s.ownership +
  w.expected * s.expected +
  w.setPieces * s.setPieces

/-- The per-player sub-score bundle as assembled in `_calculate_player_scores`
(the auxiliary dict fields are passed explicitly). -/
def calculateSubScores (p : Player) (history : Option History)
    (fixtures : List FixtureData)
    (transfersInEvent transfersOutEvent : ℤ) (xg xa xgc : ℚ) : SubScores :=
  { historical := historicalScore p history
    form := formScore p transfersInEvent transfersOutEvent
    fixtures := fixtureScore p fixtures
    value := valueScore p history
    ownership := ownershipScore p
    expected := expectedScore p xg xa xgc
    setPieces := setPieceScore p history }

/-! ### Stable descending sort (Python `list.sort(key=..., reverse=True)`) -/

/-- Insert `a` into `l`, placing it before the first element whose key does
not exceed `a`'s (stable descending insertion: ties keep their original
relative order, as in Python's `sort`). -/
def insertDesc {α : Type} (key : α → ℚ) (a : α) : List α → List α
  | [] => [a]
  | b :: l => if key a ≥ key b then a :: b :: l else b :: insertDesc key a l

/-- Stable descending sort by key, modelling Python's
`sort(key=..., reverse=True)`. -/
def sortDesc {α : Type} (key : α → ℚ) : List α → List α
  | [] => []
  | a :: l => insertDesc key a (sortDesc key l)

/-! ### Constants (`constants.py`) -/

/-- `FPLConstants.VALID_FORMATIONS`. -/
def validFormations : List (ℤ × ℤ × ℤ × ℤ) :=
  [(1, 3, 4, 3), (1, 3, 5, 2), (1, 4, 3, 3), (1, 4, 4, 2),
   (1, 4, 5, 1), (1, 5, 3, 2), (1, 5, 4, 1), (1, 5, 2, 3)]

/-- `FPLConstants.SQUAD_REQUIREMENTS` (2 GK, 5 DEF, 5 MID, 3 FWD) keyed by
element type. -/
def squadRequirement (elementType : ℤ) : ℕ :=
  if elementType == 1 then 2
  else if elementType == 2 then 5
  else if elementType == 3 then 5
  else 3

/-! ### ILP constraint systems

The CBC solve is external; its output is modelled as an assignment
`σ : ℤ → Bool` of the binary variable of each player id (`varValue == 1`).
The predicates below are the exact constraint sets the two optimizers hand to
the solver; on a feasible instance the solver returns an assignment satisfying
them. -/

/-- The players extracted from the solver assignment
(`if player_vars[p.id].varValue == 1`). -/
def selectedPlayers (players : List Player) (σ : ℤ → Bool) : List Player :=
  players.filter (fun p => σ p.id)

/-- Number of selected players of a given element type. -/
def selectedCountOfType (players : List Player) (σ : ℤ → Bool) (t : ℤ) : ℕ :=
  ((selectedPlayers players σ).filter (fun p => p.elementType == t)).length

/-- Total selected price `Σ now_cost / 10`. -/
def selectedCost (players : List Player) (σ : ℤ → Bool) : ℚ :=
  ((selectedPlayers players σ).map Player.price).sum

/-- A "regular starter" per constraint 5 of `_optimize_with_scores`:
`p.minutes > 60 and p.chance_of_playing_this_round in [None, 100]`. -/
def regularStarter (p : Player) : Bool :=
  p.minutes > 60 &&
    (match p.chanceOfPlayingThisRound with
     | none => true
     | some v => v == 100)

/-- The constraint system of `SquadOptimizerWithHistory._optimize_with_scores`:
squad size 15, budget, exact position counts, per-team cap 3, conditional
regular-starter and premium minimums, bench-fodder cap, and the conditional
goalkeeper price split. -/
def historyConstraints (players : List Player) (budget : ℚ) (σ : ℤ → Bool) : Bool :=
  let sel := selectedPlayers players σ
  let regulars := players.filter regularStarter
  let premiums := players.filter (fun p => p.nowCost ≥ 100)
  let premiumGks := players.filter (fun p => p.elementType == 1 && p.nowCost ≥ 45)
  let fodderGks := players.filter (fun p => p.elementType == 1 && p.nowCost ≤ 40)
  (sel.length == 15) &&
  (selectedCost players σ ≤ budget) &&
  (selectedCountOfType players σ 1 == 2) &&
  (selectedCountOfType players σ 2 == 5) &&
  (selectedCountOfType players σ 3 == 5) &&
  (selectedCountOfType players σ 4 == 3) &&
  ((players.map Player.team).dedup.all
    (fun t => (sel.filter (fun p => p.team == t)).length ≤ 3)) &&
  (!(regulars.length ≥ 11) || (sel.filter regularStarter).length ≥ 11) &&
  (!(premiums.length ≥ 2) || (sel.filter (fun p => p.nowCost ≥ 100)).length ≥ 2) &&
  ((sel.filter (fun p => p.nowCost ≤ 45)).length ≤ 4) &&
  (!(premiumGks.length ≥ 1 && fodderGks.length ≥ 1) ||
    ((sel.filter (fun p => p.elementType == 1 && p.nowCost ≥ 45)).length ≥ 1 &&
     (sel.filter (fun p => p.elementType == 1 && p.nowCost ≤ 40)).length ≥ 1))

/-- The price floor used by constraint 5 of `SquadOptimizer.optimize_initial_squad`
for "quality" players per position (`avg_prices`). -/
def qualityPriceFloor (elementType : ℤ) : ℤ :=
  if elementType == 1 then 50
  else if elementType == 2 then 55
  else 75

/-- The constraint system of `SquadOptimizer.optimize_initial_squad`:
squad size 15, budget, exact position counts, per-team cap 3, and at least two
"quality" players in each outfield position (unconditional). -/
def basicConstraints (players : List Player) (budget : ℚ) (σ : ℤ → Bool) : Bool :=
  let sel := selectedPlayers players σ
  (sel.length == 15) &&
  (selectedCost players σ ≤ budget) &&
  (selectedCountOfType players σ 1 == 2) &&
  (selectedCountOfType players σ 2 == 5) &&
  (selectedCountOfType players σ 3 == 5) &&
  (selectedCountOfType players σ 4 == 3) &&
  ((players.map Player.team).dedup.all
    (fun t => (sel.filter (fun p => p.team == t)).length ≤ 3)) &&
  ([(2 : ℤ), 3, 4].all (fun t =>
    (sel.filter (fun p => p.elementType == t && p.nowCost ≥ qualityPriceFloor t)).length ≥ 2))

/-! ### Lineup selection -/

/-- The effective score used throughout `select_starting_eleven`:
`scores[x.id].total_score if x.id in scores else x.total_points`.
`scores` is the id-to-total-score lookup of the `PlayerScore` dict. -/
def effScore (scores : ℤ → Option ℚ) (x : Player) : ℚ :=
  match scores x.id with
  | some s => s
  | none => (x.totalPoints : ℚ)

/-- The players of one position, sorted by descending effective score
(the `positions` dict of `select_starting_eleven`). -/
def positionSorted (players : List Player) (scores : ℤ → Option ℚ) (t : ℤ) : List Player :=
  sortDesc (effScore scores) (players.filter (fun p => p.elementType == t))

/-- Formation-search accumulator: best score so far plus the formation and
lineup that achieved it (both `None` initially). -/
structure FormationAcc where
  bestScore : ℚ
  best : Option ((ℤ × ℤ × ℤ × ℤ) × List Player)

/-- One step of the formation loop of `select_starting_eleven`: skip the
formation when a position runs short, otherwise score the top players of each
outfield position and keep the strictly best. -/
def formationStep (defs mids fwds : List Player) (scores : ℤ → Option ℚ)
    (acc : FormationAcc) (f : ℤ × ℤ × ℤ × ℤ) : FormationAcc :=
  let df := f.2.1.toNat
  let md := f.2.2.1.toNat
  let fw := f.2.2.2.toNat
  if defs.length < df || mids.length < md || fwds.length < fw then acc
  else
    let lineup := defs.take df ++ mids.take md ++ fwds.take fw
    let score := (lineup.map (effScore scores)).sum
    if score > acc.bestScore then ⟨score, some (f, lineup)⟩ else acc

/-- The tail of `select_starting_eleven` after the formation search: append
the winning lineup to the starting goalkeeper, bench the leftovers, and
reorder the bench as best-3-outfield followed by the backup goalkeeper. -/
def selectFinish (scores : ℤ → Option ℚ) (gks defs mids fwds : List Player)
    (best : Option ((ℤ × ℤ × ℤ × ℤ) × List Player)) :
    List Player × List Player × Option (ℤ × ℤ × ℤ × ℤ) :=
  let starting0 : List Player := if gks.length ≥ 2 then gks.take 1 else []
  let bench0 : List Player := if gks.length ≥ 2 then (gks.drop 1).take 1 else []
  match best with
  | some (f, lineup) =>
    let df := f.2.1.toNat
    let md := f.2.2.1.toNat
    let fw := f.2.2.2.toNat
    let starting := starting0 ++ lineup
    let bench := bench0 ++ defs.drop df ++ mids.drop md ++ fwds.drop fw
    let outfieldBench := sortDesc (effScore scores)
      (bench.filter (fun p => p.elementType != 1))
    let gkBench := bench.filter (fun p => p.elementType == 1)
    (starting, outfieldBench.take 3 ++ gkBench, some f)
  | none =>
    let bench := bench0
    let outfieldBench := sortDesc (effScore scores)
      (bench.filter (fun p => p.elementType != 1))
    let gkBench := bench.filter (fun p => p.elementType == 1)
    (starting0, outfieldBench.take 3 ++ gkBench, none)

/-- `SquadOptimizerWithHistory.select_starting_eleven`: returns the starting
eleven, the ordered bench, and the chosen formation (`None` when no formation
beat the initial best score of 0). -/
def selectStartingEleven (players : List Player) (scores : ℤ → Option ℚ) :
    List Player × List Player × Option (ℤ × ℤ × ℤ × ℤ) :=
  let gks := positionSorted players scores 1
  let defs := positionSorted players scores 2
  let mids := positionSorted players scores 3
  let fwds := positionSorted players scores 4
  selectFinish scores gks defs mids fwds
    ((validFormations.foldl (formationStep defs mids fwds scores) ⟨0, none⟩).best)

/-- The constraint system of `SquadOptimizer.optimize_starting_xi`: exactly 11
starters drawn from the squad, with per-position counts equal to the squad's
formation. -/
def startingXiConstraints (players : List Player) (formation : ℤ × ℤ × ℤ × ℤ)
    (σ : ℤ → Bool) : Bool :=
  (selectedPlayers players σ).length == 11 &&
  (selectedCountOfType players σ 1 : ℤ) == formation.1 &&
  (selectedCountOfType players σ 2 : ℤ) == formation.2.1 &&
  (selectedCountOfType players σ 3 : ℤ) == formation.2.2.1 &&
  (selectedCountOfType players σ 4 : ℤ) == formation.2.2.2

/-- The bench extracted by `optimize_starting_xi` (players whose variable is
not 1). -/
def xiBench (players : List Player) (σ : ℤ → Bool) : List Player :=
  players.filter (fun p => !σ p.id)

/-- `SquadOptimizer._order_bench`: the goalkeeper is placed FIRST, the outfield
players follow sorted by descending predicted points. -/
def orderBench (benchPlayers : List Player) (predictions : ℤ → Option ℚ) :
    List Player :=
  let gk := benchPlayers.filter (fun p => p.elementType == 1)
  let others := benchPlayers.filter (fun p => p.elementType != 1)
  gk ++ sortDesc (fun p => (predictions p.id).getD 0) others

/-! ### The Squad model (`models.py`) -/

/-- `models.Squad`; `formation` is `Option` because
`SquadOptimizerWithHistory._optimize_with_scores` stores the formation
returned by `select_starting_eleven`, which can be `None`. -/
structure Squad where
  players : List Player
  formation : Option (ℤ × ℤ × ℤ × ℤ)
  budget : ℚ
  starting11 : List Player
  bench : List Player

/-- `Squad.value` (total player price). -/
def Squad.value (s : Squad) : ℚ := (s.players.map Player.price).sum

/-- `Squad.remaining_budget`. -/
def Squad.remainingBudget (s : Squad) : ℚ := s.budget - s.value

/-- The body of `models.Squad.get_starting_xi` for a concrete formation tuple:
for each position in order GK, DEF, MID, FWD take the formation's count of
players sorted by descending `total_points`. -/
def startingXiOf (players : List Player) (f : ℤ × ℤ × ℤ × ℤ) : List Player :=
  (sortDesc (fun p => (p.totalPoints : ℚ)) (players.filter (fun p => p.elementType == 1))).take f.1.toNat ++
  (sortDesc (fun p => (p.totalPoints : ℚ)) (players.filter (fun p => p.elementType == 2))).take f.2.1.toNat ++
  (sortDesc (fun p => (p.totalPoints : ℚ)) (players.filter (fun p => p.elementType == 3))).take f.2.2.1.toNat ++
  (sortDesc (fun p => (p.totalPoints : ℚ)) (players.filter (fun p => p.elementType == 4))).take f.2.2.2.toNat

/-- `models.Squad.get_starting_xi` (destructuring `self.formation`; a `None`
formation would raise in Python and yields `[]` here, outside every claim's
hypotheses). -/
def Squad.getStartingXi (s : Squad) : List Player :=
  match s.formation with
  | some f => startingXiOf s.players f
  | none => []

/-- `models.Squad.get_bench`: the squad players whose id is not among the
starting XI's ids. -/
def Squad.getBench (s : Squad) : List Player :=
  let startingIds := (s.getStartingXi).map Player.id
  s.players.filter (fun p => !startingIds.contains p.id)

/-- The squad value built and returned by
`SquadOptimizerWithHistory._optimize_with_scores` from a solver assignment:
no status check is performed, the players with `varValue == 1` are packed into
a `Squad` together with the starting-eleven split. -/
def optimizeWithScoresResult (players : List Player) (scores : ℤ → Option ℚ)
    (budget : ℚ) (σ : ℤ → Bool) : Squad :=
  let sel := selectedPlayers players σ
  let r := selectStartingEleven sel scores
  { players := sel
    formation := r.2.2
    budget := budget
    starting11 := r.1
    bench := r.2.1 }

/-! ### Basic lemmas about the embedded operations -/

theorem insertDesc_perm {α : Type} (key : α → ℚ) (a : α) (l : List α) :
    List.Perm (insertDesc key a l) (a :: l) := by
  induction l with
  | nil => simp [insertDesc]
  | cons b t ih =>
    by_cases h : key a ≥ key b
    · simp [insertDesc, h]
    · simp only [insertDesc, if_neg h]
      exact ((ih.cons b).trans (List.Perm.swap a b t))

theorem sortDesc_perm {α : Type} (key : α → ℚ) (l : List α) :
    List.Perm (sortDesc key l) l := by
  induction l with
  | nil => simp [sortDesc]
  | cons a t ih =>
    exact (insertDesc_perm key a (sortDesc key t)).trans (ih.cons a)

theorem sortDesc_length {α : Type} (key : α → ℚ) (l : List α) :
    (sortDesc key l).length = l.length :=
  (sortDesc_perm key l).length_eq

theorem mem_sortDesc {α : Type} {key : α → ℚ} {l : List α} {a : α} :
    a ∈ sortDesc key l ↔ a ∈ l :=
  (sortDesc_perm key l).mem_iff

/-- Splitting a list by a boolean predicate preserves its length. -/
theorem length_filter_add_length_filter_not {α : Type} (l : List α) (p : α → Bool) :
    (l.filter p).length + (l.filter (fun a => !p a)).length = l.length := by
  induction l with
  | nil => simp
  | cons a t ih =>
    by_cases h : p a = true
    · rw [List.filter_cons, List.filter_cons, if_pos (by simp [h]), if_neg (by simp [h])]
      simp only [List.length_cons]
      omega
    · rw [List.filter_cons, List.filter_cons, if_neg (by simp [h]),
        if_pos (by simp [Bool.not_eq_true] at h; simp [h])]
      simp only [List.length_cons]
      omega

/-- Counting two disjoint boolean refinements of a predicate is bounded by the
count of the predicate itself. -/
theorem length_filter_add_length_filter_le {α : Type} (l : List α) (p q r : α → Bool)
    (hpq : ∀ a, ¬(p a = true ∧ q a = true))
    (hpr : ∀ a, p a = true → r a = true)
    (hqr : ∀ a, q a = true → r a = true) :
    (l.filter p).length + (l.filter q).length ≤ (l.filter r).length := by
  induction l with
  | nil => simp
  | cons a t ih =>
    rw [List.filter_cons, List.filter_cons, List.filter_cons]
    by_cases hp : p a = true
    · have hq : ¬ q a = true := fun hq => hpq a ⟨hp, hq⟩
      rw [if_pos (by simp [hp]), if_neg (by simp [hq]), if_pos (by simp [hpr a hp])]
      simp only [List.length_cons]
      omega
    · by_cases hq : q a = true
      · rw [if_neg (by simp [hp]), if_pos (by simp [hq]), if_pos (by simp [hqr a hq])]
        simp only [List.length_cons]
        omega
      · rw [if_neg (by simp [hp]), if_neg (by simp [hq])]
        by_cases hr : r a = true
        · rw [if_pos (by simp [hr])]
          exact Nat.le_succ_of_le ih
        · rw [if_neg (by simp [hr])]
          exact ih

/-- If a filter keeps the whole length of the list, it keeps the list. -/
theorem filter_eq_self_of_length {α : Type} {l : List α} {p : α → Bool}
    (h : (l.filter p).length = l.length) : l.filter p = l :=
  (List.filter_sublist l).eq_of_length h

/-- Members of a nodup-by-id list are determined by their id. -/
theorem eq_of_id_eq {players : List Player}
    (hnodup : (players.map Player.id).Nodup) {p q : Player}
    (hp : p ∈ players) (hq : q ∈ players) (h : p.id = q.id) : p = q :=
  List.inj_on_of_nodup_map hnodup hp hq h

/-! ### C6: the total score is the linear weighted combination -/

/-- C6: `total_score` is exactly the linear combination
`Σ weight[k] * subscore[k]` over the seven recognized keys; for each
weight vector that is all-zero except one key the total equals that key's
sub-score, and a key whose weight is 0 has no effect on the total. -/
theorem totalScore_is_linear_combination :
    (∀ (w : Weights) (s : SubScores),
      totalScore w s =
        w.historical * s.historical + w.form * s.form + w.fixtures * s.fixtures +
        w.value * s.value + w.ownership * s.ownership + w.expected * s.expected +
        w.setPieces * s.setPieces) ∧
    (∀ s : SubScores,
      totalScore ⟨1, 0, 0, 0, 0, 0, 0⟩ s = s.historical ∧
      totalScore ⟨0, 1, 0, 0, 0, 0, 0⟩ s = s.form ∧
      totalScore ⟨0, 0, 1, 0, 0, 0, 0⟩ s = s.fixtures ∧
      totalScore ⟨0, 0, 0, 1, 0, 0, 0⟩ s = s.value ∧
      totalScore ⟨0, 0, 0, 0, 1, 0, 0⟩ s = s.ownership ∧
      totalScore ⟨0, 0, 0, 0, 0, 1, 0⟩ s = s.expected ∧
      totalScore ⟨0, 0, 0, 0, 0, 0, 1⟩ s = s.setPieces) ∧
    (∀ (w : Weights) (s : SubScores) (v : ℚ),
      totalScore { w with historical := 0 } { s with historical := v } =
        totalScore { w with historical := 0 } s ∧
      totalScore { w with form := 0 } { s with form := v } =
        totalScore { w with form := 0 } s ∧
      totalScore { w with fixtures := 0 } { s with fixtures := v } =
        totalScore { w with fixtures := 0 } s ∧
      totalScore { w with value := 0 } { s with value := v } =
        totalScore { w with value := 0 } s ∧
      totalScore { w with ownership := 0 } { s with ownership := v } =
        totalScore { w with ownership := 0 } s ∧
      totalScore { w with expected := 0 } { s with expected := v } =
        totalScore { w with expected := 0 } s ∧
      totalScore { w with setPieces := 0 } { s with setPieces := v } =
        totalScore { w with setPieces := 0 } s) := by
  refine ⟨fun w s => rfl, fun s => ?_, fun w s v => ?_⟩
  · refine ⟨?_, ?_, ?_, ?_, ?_, ?_, ?_⟩ <;> simp [totalScore]
  · refine ⟨?_, ?_, ?_, ?_, ?_, ?_, ?_⟩ <;> simp [totalScore]

/-! ### C10: goalkeepers always get a zero set-piece score -/

/-- C10: the set-piece sub-score is exactly 0 for every goalkeeper, no matter
what the static taker table says about the name and no matter what the
historical penalty record is. -/
theorem setPieceScore_goalkeeper_eq_zero (p : Player) (history : Option History)
    (h : p.elementType = 1) : setPieceScore p history = 0 := by
  unfold setPieceScore
  cases history with
  | none => simp [h]
  | some hh => simp [h]

/-- Witness for C10: a premium-named goalkeeper with a rich penalty history
still scores 0. -/
theorem setPieceScore_goalkeeper_eq_zero_witness :
    setPieceScore ⟨7, "Haaland", 11, 1, 140, 200, 6, 40, 8, 3000, none⟩
      (some ⟨some [⟨180, 3200, 7, 1⟩]⟩) = 0 :=
  setPieceScore_goalkeeper_eq_zero _ _ rfl

/-! ### C8: no unfinished fixtures means the neutral value -/

/-- C8: when the player's team has no unfinished fixture in the supplied list,
`_calculate_fixture_score` returns the neutral 50 and the analyzer's
`_calculate_fixture_difficulty` returns the neutral 3.0; both are total
functions of their inputs. -/
theorem fixtureScore_neutral_when_no_fixtures (p : Player)
    (fixtures : List FixtureData) (nextN : ℕ)
    (h : ∀ f ∈ fixtures, (f.teamH ≠ p.team ∧ f.teamA ≠ p.team) ∨ f.finished = true) :
    fixtureScore p fixtures = 50 ∧ fixtureDifficulty p fixtures nextN = 3 := by
  have hempty : teamFixtures p fixtures = [] := by
    refine List.filter_eq_nil_iff.mpr fun f hf => ?_
    rcases h f hf with ⟨h1, h2⟩ | h3
    · simp [h1, h2]
    · simp [h3]
  constructor
  · rw [fixtureScore]
    simp [hempty]
  · rw [fixtureDifficulty]
    simp [hempty]

/-- Witness for C8: a pool with one finished fixture of the player's team and
one unrelated fixture is neutral. -/
theorem fixtureScore_neutral_when_no_fixtures_witness :
    fixtureScore ⟨3, "Keeper", 4, 1, 40, 10, 2, 1, 2, 900, none⟩
        [⟨4, 6, true, 2, 4⟩, ⟨7, 9, false, 3, 3⟩] = 50 ∧
      fixtureDifficulty ⟨3, "Keeper", 4, 1, 40, 10, 2, 1, 2, 900, none⟩
        [⟨4, 6, true, 2, 4⟩, ⟨7, 9, false, 3, 3⟩] 5 = 3 :=
  fixtureScore_neutral_when_no_fixtures _ _ _ (by decide)

/-! ### C5: the recency weighting of the historical score is inverted -/

/-- A player with no usable current-season signal, used to exercise the
historical score in isolation. -/
def plainPlayer : Player := ⟨1, "Plain", 1, 3, 50, 0, 0, 0, 0, 0, none⟩

/-- A full season (3420 minutes) worth 0 points. -/
def blankSeason : PastSeason := ⟨0, 3420, 0, 0⟩

/-- A full season (3420 minutes) worth 380 points (10 points per 90). -/
def strongSeason : PastSeason := ⟨380, 3420, 0, 0⟩

/-- C5 (code bug): `_calculate_historical_score` iterates `past_seasons[-3:]`
in chronological order (oldest first, as the repository reads
`past_seasons[-1]` as the most recent season everywhere else), yet applies the
multiplier `1.2 - 0.4*i/max(n-1,1)` at loop index `i`, so the OLDEST season
receives the highest weight 1.2 and the most recent receives the lowest —
the opposite of the claim and of the code's own comments.  Concretely, a
history whose strong 380-point season is the most recent scores 43, while the
same two seasons with the strong one oldest score 76.2. -/
theorem historicalScore_recency_weight_inverted :
    recencyMultiplier 0 2 = 1.2 ∧
    recencyMultiplier 1 2 = 0.8 ∧
    historicalScore plainPlayer (some ⟨some [blankSeason, strongSeason]⟩) = 43 ∧
    historicalScore plainPlayer (some ⟨some [strongSeason, blankSeason]⟩) = 381 / 5 ∧
    historicalScore plainPlayer (some ⟨some [blankSeason, strongSeason]⟩) <
      historicalScore plainPlayer (some ⟨some [strongSeason, blankSeason]⟩) := by
  have h1 : historicalScore plainPlayer (some ⟨some [blankSeason, strongSeason]⟩) = 43 := by
    norm_num [historicalScore, historicalScoreMain, lastN, List.enum, List.enumFrom, histStep,
      recencyMultiplier, bestSeasonTotal, projectedToBase, blankSeason, strongSeason, plainPlayer]
  have h2 : historicalScore plainPlayer (some ⟨some [strongSeason, blankSeason]⟩) = 381 / 5 := by
    norm_num [historicalScore, historicalScoreMain, lastN, List.enum, List.enumFrom, histStep,
      recencyMultiplier, bestSeasonTotal, projectedToBase, blankSeason, strongSeason, plainPlayer]
  refine ⟨by norm_num [recencyMultiplier], by norm_num [recencyMultiplier], h1, h2, ?_⟩
  rw [h1, h2]
  norm_num

/-! ### C3 counterexample: a fixture sub-score above 100 -/

/-- A midfielder of team 1 with empty current statistics. -/
def team1Player : Player := ⟨2, "Mid", 1, 3, 50, 0, 0, 0, 0, 0, none⟩

/-- The easiest possible home fixture (difficulty 1) for team 1. -/
def easyHomeFixture : FixtureData := ⟨1, 2, false, 1, 3⟩

/-- Counterexample for C3: with a single unfinished home fixture of difficulty
1, `_calculate_fixture_score` returns `(6-1)*1.1*20 = 110 > 100`: the fixture
sub-score is not clamped to `[0, 100]`. -/
theorem fixtureScore_not_clamped_above :
    fixtureScore team1Player [easyHomeFixture] = 110 ∧
      ¬(fixtureScore team1Player [easyHomeFixture] ≤ 100) := by
  have h : fixtureScore team1Player [easyHomeFixture] = 110 := by
    norm_num [fixtureScore, teamFixtures, team1Player, easyHomeFixture, List.filter]
  exact ⟨h, by rw [h]; norm_num⟩

/-! ### C1: the encoded hard constraints imply the squad invariants -/

/-- The spec's squad invariants, stated on the solver assignment: 15 players,
position counts {2, 5, 5, 3}, at most 3 per team, total price within budget. -/
def SquadInvariants (players : List Player) (budget : ℚ) (σ : ℤ → Bool) : Prop :=
  (selectedPlayers players σ).length = 15 ∧
  selectedCountOfType players σ 1 = 2 ∧
  selectedCountOfType players σ 2 = 5 ∧
  selectedCountOfType players σ 3 = 5 ∧
  selectedCountOfType players σ 4 = 3 ∧
  (∀ t : ℤ, ((selectedPlayers players σ).filter (fun p => p.team == t)).length ≤ 3) ∧
  selectedCost players σ ≤ budget

/-- The per-team cap over the pool's team list extends to every team id. -/
theorem team_cap_of_all {players sel : List Player}
    (hsub : ∀ p ∈ sel, p ∈ players)
    (hall : ∀ t ∈ (players.map Player.team).dedup,
      (sel.filter (fun p => p.team == t)).length ≤ 3) :
    ∀ t : ℤ, (sel.filter (fun p => p.team == t)).length ≤ 3 := by
  intro t
  by_cases ht : t ∈ players.map Player.team
  · exact hall t (List.mem_dedup.mpr ht)
  · have hnil : sel.filter (fun p => p.team == t) = [] := by
      refine List.filter_eq_nil_iff.mpr fun p hp hbeq => ?_
      have hteam : p.team = t := by simpa using hbeq
      exact ht (hteam ▸ List.mem_map.mpr ⟨p, hsub p hp, rfl⟩)
    simp [hnil]

/-- C1: every assignment satisfying the constraint system of
`_optimize_with_scores` (and likewise of `optimize_initial_squad`) yields a
squad with exactly 15 players, position counts {2, 5, 5, 3}, at most 3 players
per team, and total price within the budget; the `Squad` value built from the
solver output carries exactly those players and that value.  (The CBC solve is
modelled by its contract: on a feasible instance the assignment it returns
satisfies the handed-over constraints.) -/
theorem optimized_squad_satisfies_invariants
    (players : List Player) (budget : ℚ) (σ : ℤ → Bool)
    (players' : List Player) (budget' : ℚ) (σ' : ℤ → Bool)
    (h : historyConstraints players budget σ = true)
    (h' : basicConstraints players' budget' σ' = true) :
    SquadInvariants players budget σ ∧
    SquadInvariants players' budget' σ' ∧
    ∀ scores : ℤ → Option ℚ,
      (optimizeWithScoresResult players scores budget σ).players.length = 15 ∧
      (optimizeWithScoresResult players scores budget σ).value ≤ budget := by
  simp only [historyConstraints, Bool.and_eq_true, beq_iff_eq, decide_eq_true_eq,
    List.all_eq_true] at h
  obtain ⟨⟨⟨⟨⟨⟨⟨⟨⟨⟨hlen, hcost⟩, hgk⟩, hdef⟩, hmid⟩, hfwd⟩, hteam⟩, -⟩, -⟩, -⟩, -⟩ := h
  simp only [basicConstraints, Bool.and_eq_true, beq_iff_eq, decide_eq_true_eq,
    List.all_eq_true] at h'
  obtain ⟨⟨⟨⟨⟨⟨⟨hlen', hcost'⟩, hgk'⟩, hdef'⟩, hmid'⟩, hfwd'⟩, hteam'⟩, -⟩ := h'
  have hteamAll : ∀ t : ℤ,
      ((selectedPlayers players σ).filter (fun p => p.team == t)).length ≤ 3 :=
    team_cap_of_all (fun p hp => List.mem_of_mem_filter hp)
      (fun t ht => by simpa using hteam t ht)
  have hteamAll' : ∀ t : ℤ,
      ((selectedPlayers players' σ').filter (fun p => p.team == t)).length ≤ 3 :=
    team_cap_of_all (fun p hp => List.mem_of_mem_filter hp)
      (fun t ht => by simpa using hteam' t ht)
  exact ⟨⟨hlen, hgk, hdef, hmid, hfwd, hteamAll, hcost⟩,
    ⟨hlen', hgk', hdef', hmid', hfwd', hteamAll', hcost'⟩,
    fun scores => ⟨hlen, hcost⟩⟩

/-! ### C2: infeasibility is silently masked, not surfaced -/

/-- A pool player, with the fields irrelevant to the optimizer zeroed. -/
def poolPlayer (pid team etype cost : ℤ) : Player :=
  ⟨pid, "P", team, etype, cost, 0, 0, 0, 0, 90, none⟩

/-- The spec's own infeasibility scenario: 15 candidates, every one priced
£7.0m, budget £100.0m (total £105.0m). -/
def infeasiblePool : List Player :=
  [poolPlayer 1 1 1 70, poolPlayer 2 2 1 70,
   poolPlayer 3 3 2 70, poolPlayer 4 4 2 70, poolPlayer 5 5 2 70,
   poolPlayer 6 6 2 70, poolPlayer 7 7 2 70,
   poolPlayer 8 8 3 70, poolPlayer 9 9 3 70, poolPlayer 10 10 3 70,
   poolPlayer 11 11 3 70, poolPlayer 12 12 3 70,
   poolPlayer 13 13 4 70, poolPlayer 14 14 4 70, poolPlayer 15 15 4 70]

/-- C2 (code bug): on the spec's infeasible scenario no assignment satisfies
either optimizer's constraint system, yet `_optimize_with_scores` performs no
status check and packs whatever variables the failed solve left (CBC leaves
them unset, modelled as the all-false assignment) into a `Squad`: the caller
silently receives a 0-player squad instead of an infeasibility signal. -/
theorem infeasibility_returns_partial_squad :
    (∀ σ : ℤ → Bool, historyConstraints infeasiblePool 100 σ = false) ∧
    (∀ σ : ℤ → Bool, basicConstraints infeasiblePool 100 σ = false) ∧
    (optimizeWithScoresResult infeasiblePool (fun _ => none) 100
      (fun _ => false)).players.length = 0 := by
  have hlen15 : infeasiblePool.length = 15 := by
    norm_num [infeasiblePool]
  have hcost : ((infeasiblePool.map Player.price).sum : ℚ) = 105 := by
    norm_num [infeasiblePool, poolPlayer, Player.price]
  have hbudget : ∀ σ : ℤ → Bool,
      (selectedPlayers infeasiblePool σ).length = 15 →
      ¬(selectedCost infeasiblePool σ ≤ 100) := by
    intro σ hlen
    have hsel : selectedPlayers infeasiblePool σ = infeasiblePool :=
      filter_eq_self_of_length (by
        rw [show (List.filter (fun p => σ p.id) infeasiblePool) =
          selectedPlayers infeasiblePool σ from rfl, hlen, hlen15])
    rw [selectedCost, hsel, hcost]
    norm_num
  refine ⟨fun σ => ?_, fun σ => ?_, ?_⟩
  · by_contra hne
    rw [Bool.not_eq_false] at hne
    simp only [historyConstraints, Bool.and_eq_true, beq_iff_eq, decide_eq_true_eq,
      List.all_eq_true] at hne
    exact hbudget σ hne.1.1.1.1.1.1.1.1.1.1 hne.1.1.1.1.1.1.1.1.1.2
  · by_contra hne
    rw [Bool.not_eq_false] at hne
    simp only [basicConstraints, Bool.and_eq_true, beq_iff_eq, decide_eq_true_eq,
      List.all_eq_true] at hne
    exact hbudget σ hne.1.1.1.1.1.1.1 hne.1.1.1.1.1.1.2
  · simp [optimizeWithScoresResult, selectedPlayers]

/-! ### C7: the goalkeeper price split -/

/-- C7: whenever the pool offers at least one premium-priced (≥ £4.5m) and one
fodder-priced (≤ £4.0m) goalkeeper, any assignment satisfying the
`_optimize_with_scores` constraints selects exactly one goalkeeper of each
tier — never two premium, never two fodder. -/
theorem goalkeeper_price_split
    (players : List Player) (budget : ℚ) (σ : ℤ → Bool)
    (h : historyConstraints players budget σ = true)
    (hprem : 0 < (players.filter (fun p => p.elementType == 1 && p.nowCost ≥ 45)).length)
    (hfod : 0 < (players.filter (fun p => p.elementType == 1 && p.nowCost ≤ 40)).length) :
    ((selectedPlayers players σ).filter
      (fun p => p.elementType == 1 && p.nowCost ≥ 45)).length = 1 ∧
    ((selectedPlayers players σ).filter
      (fun p => p.elementType == 1 && p.nowCost ≤ 40)).length = 1 := by
  simp only [historyConstraints, Bool.and_eq_true, beq_iff_eq, decide_eq_true_eq,
    List.all_eq_true] at h
  obtain ⟨⟨⟨⟨⟨⟨⟨⟨⟨⟨-, -⟩, hgk⟩, -⟩, -⟩, -⟩, -⟩, -⟩, -⟩, -⟩, hsplit⟩ := h
  rw [Bool.or_eq_true, Bool.not_eq_true', Bool.and_eq_false_iff] at hsplit
  have hsplit' :
      1 ≤ ((selectedPlayers players σ).filter
          (fun p => p.elementType == 1 && p.nowCost ≥ 45)).length ∧
      1 ≤ ((selectedPlayers players σ).filter
          (fun p => p.elementType == 1 && p.nowCost ≤ 40)).length := by
    rcases hsplit with hfalse | htrue
    · rcases hfalse with hfalse | hfalse <;>
        · rw [decide_eq_false_iff_not] at hfalse
          omega
    · rw [Bool.and_eq_true, decide_eq_true_eq, decide_eq_true_eq] at htrue
      exact htrue
  have hdisj : ((selectedPlayers players σ).filter
        (fun p => p.elementType == 1 && p.nowCost ≥ 45)).length +
      ((selectedPlayers players σ).filter
        (fun p => p.elementType == 1 && p.nowCost ≤ 40)).length ≤
      ((selectedPlayers players σ).filter (fun p => p.elementType == 1)).length := by
    refine length_filter_add_length_filter_le _ _ _ _ (fun a ha => ?_)
      (fun a ha => ?_) (fun a ha => ?_)
    · rw [Bool.and_eq_true, Bool.and_eq_true, decide_eq_true_eq, decide_eq_true_eq] at ha
      omega
    · rw [Bool.and_eq_true] at ha
      exact ha.1
    · rw [Bool.and_eq_true] at ha
      exact ha.1
  have hgk2 : ((selectedPlayers players σ).filter
      (fun p => p.elementType == 1)).length = 2 := hgk
  omega

/-- A concrete feasible 15-player pool: one premium and one fodder goalkeeper,
five £6.0m defenders, midfielders at £10.0/7.5/7.5/6.0/6.0m, forwards at
£10.0/7.5/6.0m, all on distinct teams, total £99.5m. -/
def feasiblePool : List Player :=
  [poolPlayer 1 1 1 50, poolPlayer 2 2 1 40,
   poolPlayer 3 3 2 60, poolPlayer 4 4 2 60, poolPlayer 5 5 2 60,
   poolPlayer 6 6 2 60, poolPlayer 7 7 2 60,
   poolPlayer 8 8 3 100, poolPlayer 9 9 3 75, poolPlayer 10 10 3 75,
   poolPlayer 11 11 3 60, poolPlayer 12 12 3 60,
   poolPlayer 13 13 4 100, poolPlayer 14 14 4 75, poolPlayer 15 15 4 60]

/-- Filtering by the all-true assignment keeps the pool. -/
theorem selectedPlayers_true (l : List Player) :
    selectedPlayers l (fun _ => true) = l := by
  simp [selectedPlayers]

/-- The price of the whole feasible pool is £99.5m, within budget. -/
theorem feasiblePool_cost :
    selectedCost feasiblePool (fun _ => true) ≤ 100 := by
  rw [selectedCost, selectedPlayers_true]
  norm_num [feasiblePool, poolPlayer, Player.price]

/-- Both constraint systems hold for `feasiblePool` under the all-true
assignment. -/
theorem feasiblePool_constraints :
    historyConstraints feasiblePool 100 (fun _ => true) = true ∧
    basicConstraints feasiblePool 100 (fun _ => true) = true := by
  constructor
  · unfold historyConstraints
    simp only [Bool.and_eq_true]
    refine ⟨⟨⟨⟨⟨⟨⟨⟨⟨⟨?_, ?_⟩, ?_⟩, ?_⟩, ?_⟩, ?_⟩, ?_⟩, ?_⟩, ?_⟩, ?_⟩, ?_⟩
    · decide
    · exact decide_eq_true feasiblePool_cost
    · decide
    · decide
    · decide
    · decide
    · decide
    · decide
    · decide
    · decide
    · decide
  · unfold basicConstraints
    simp only [Bool.and_eq_true]
    refine ⟨⟨⟨⟨⟨⟨⟨?_, ?_⟩, ?_⟩, ?_⟩, ?_⟩, ?_⟩, ?_⟩, ?_⟩
    · decide
    · exact decide_eq_true feasiblePool_cost
    · decide
    · decide
    · decide
    · decide
    · decide
    · decide

/-- Witness for C1: the invariants hold on the concrete feasible pool. -/
theorem optimized_squad_satisfies_invariants_witness :
    SquadInvariants feasiblePool 100 (fun _ => true) ∧
    SquadInvariants feasiblePool 100 (fun _ => true) ∧
    ∀ scores : ℤ → Option ℚ,
      (optimizeWithScoresResult feasiblePool scores 100 (fun _ => true)).players.length = 15 ∧
      (optimizeWithScoresResult feasiblePool scores 100 (fun _ => true)).value ≤ 100 :=
  optimized_squad_satisfies_invariants feasiblePool 100 (fun _ => true)
    feasiblePool 100 (fun _ => true)
    feasiblePool_constraints.1 feasiblePool_constraints.2

/-- Witness for C7: the concrete feasible pool selects exactly one premium and
one fodder goalkeeper. -/
theorem goalkeeper_price_split_witness :
    ((selectedPlayers feasiblePool (fun _ => true)).filter
      (fun p => p.elementType == 1 && p.nowCost ≥ 45)).length = 1 ∧
    ((selectedPlayers feasiblePool (fun _ => true)).filter
      (fun p => p.elementType == 1 && p.nowCost ≤ 40)).length = 1 :=
  goalkeeper_price_split feasiblePool 100 (fun _ => true)
    feasiblePool_constraints.1
    (by norm_num [feasiblePool, poolPlayer, List.filter_cons])
    (by norm_num [feasiblePool, poolPlayer, List.filter_cons])

/-! ### C3: sub-score range analysis -/

/-- The ownership sub-score only takes the values 60, 40, 30, 10, 20. -/
theorem ownershipScore_bounds (p : Player) :
    0 ≤ ownershipScore p ∧ ownershipScore p ≤ 100 := by
  unfold ownershipScore
  split_ifs <;> norm_num

/-- The form sub-score is clamped above at 100 but only bounded below by -10:
the transfer-momentum term can subtract up to 10. -/
theorem formScore_bounds (p : Player) (tin tout : ℤ)
    (hform : 0 ≤ p.form) :
    -10 ≤ formScore p tin tout ∧ formScore p tin tout ≤ 100 := by
  unfold formScore
  refine ⟨le_min ?_ (by norm_num), min_le_right _ _⟩
  have hppg' : 0 ≤ (if p.pointsPerGame > 0 then p.pointsPerGame else p.form) := by
    split_ifs with h
    · exact le_of_lt h
    · exact hform
  have hmom : (-1 : ℚ) ≤ min (max (((tin - tout : ℤ) : ℚ) / 100000) (-1)) 1 :=
    le_min (le_max_right _ _) (by norm_num)
  nlinarith [hform, hppg', hmom]

/-- One foldl step of the fixture-difficulty total adds between 0.9 and 5.5
when the difficulty ratings are in 1..5. -/
theorem fixtureFold_bounds (p : Player) (l : List FixtureData) (acc : ℚ)
    (h : ∀ f ∈ l, 1 ≤ f.teamHDifficulty ∧ f.teamHDifficulty ≤ 5 ∧
      1 ≤ f.teamADifficulty ∧ f.teamADifficulty ≤ 5) :
    acc ≤ l.foldl
        (fun acc f =>
          if f.teamH == p.team then acc + (6 - (f.teamHDifficulty : ℚ)) * 1.1
          else acc + (6 - (f.teamADifficulty : ℚ)) * 0.9) acc ∧
      l.foldl
        (fun acc f =>
          if f.teamH == p.team then acc + (6 - (f.teamHDifficulty : ℚ)) * 1.1
          else acc + (6 - (f.teamADifficulty : ℚ)) * 0.9) acc ≤
        acc + 5.5 * l.length := by
  induction l generalizing acc with
  | nil => simp
  | cons f t ih =>
    have hf := h f (List.mem_cons_self f t)
    have ht : ∀ g ∈ t, 1 ≤ g.teamHDifficulty ∧ g.teamHDifficulty ≤ 5 ∧
        1 ≤ g.teamADifficulty ∧ g.teamADifficulty ≤ 5 :=
      fun g hg => h g (List.mem_cons_of_mem f hg)
    simp only [List.foldl_cons]
    by_cases hhome : (f.teamH == p.team) = true
    · rw [if_pos hhome]
      have hd1 : (1 : ℚ) ≤ (f.teamHDifficulty : ℚ) := by exact_mod_cast hf.1
      have hd5 : (f.teamHDifficulty : ℚ) ≤ 5 := by exact_mod_cast hf.2.1
      have hstep : acc + 1.1 ≤ acc + (6 - (f.teamHDifficulty : ℚ)) * 1.1 ∧
          acc + (6 - (f.teamHDifficulty : ℚ)) * 1.1 ≤ acc + 5.5 := by
        constructor <;> nlinarith
      obtain ⟨ih1, ih2⟩ := ih (acc + (6 - (f.teamHDifficulty : ℚ)) * 1.1) ht
      refine ⟨le_trans (by nlinarith) ih1, le_trans ih2 ?_⟩
      simp only [List.length_cons]
      push_cast
      nlinarith
    · rw [if_neg hhome]
      have hd1 : (1 : ℚ) ≤ (f.teamADifficulty : ℚ) := by exact_mod_cast hf.2.2.1
      have hd5 : (f.teamADifficulty : ℚ) ≤ 5 := by exact_mod_cast hf.2.2.2
      obtain ⟨ih1, ih2⟩ := ih (acc + (6 - (f.teamADifficulty : ℚ)) * 0.9) ht
      refine ⟨le_trans (by nlinarith) ih1, le_trans ih2 ?_⟩
      simp only [List.length_cons]
      push_cast
      nlinarith

/-- The fixture sub-score lies in [0, 110] when every difficulty rating is in
1..5 (it is NOT clamped to 100: a run of easy home fixtures exceeds 100). -/
theorem fixtureScore_bounds (p : Player) (fixtures : List FixtureData)
    (h : ∀ f ∈ fixtures, 1 ≤ f.teamHDifficulty ∧ f.teamHDifficulty ≤ 5 ∧
      1 ≤ f.teamADifficulty ∧ f.teamADifficulty ≤ 5) :
    0 ≤ fixtureScore p fixtures ∧ fixtureScore p fixtures ≤ 110 := by
  show
    (0 ≤ if ((teamFixtures p fixtures).take 5).isEmpty then (50 : ℚ)
      else ((teamFixtures p fixtures).take 5).foldl
        (fun acc f =>
          if f.teamH == p.team then acc + (6 - (f.teamHDifficulty : ℚ)) * 1.1
          else acc + (6 - (f.teamADifficulty : ℚ)) * 0.9) 0 /
        (((teamFixtures p fixtures).take 5).length : ℚ) * 20) ∧
    ((if ((teamFixtures p fixtures).take 5).isEmpty then (50 : ℚ)
      else ((teamFixtures p fixtures).take 5).foldl
        (fun acc f =>
          if f.teamH == p.team then acc + (6 - (f.teamHDifficulty : ℚ)) * 1.1
          else acc + (6 - (f.teamADifficulty : ℚ)) * 0.9) 0 /
        (((teamFixtures p fixtures).take 5).length : ℚ) * 20) ≤ 110)
  by_cases hemp : ((teamFixtures p fixtures).take 5).isEmpty
  · simp only [if_pos hemp]
    norm_num
  · simp only [if_neg hemp]
    set tf := (teamFixtures p fixtures).take 5 with htf
    have hmem : ∀ f ∈ tf, 1 ≤ f.teamHDifficulty ∧ f.teamHDifficulty ≤ 5 ∧
        1 ≤ f.teamADifficulty ∧ f.teamADifficulty ≤ 5 := by
      intro f hf
      exact h f (List.mem_of_mem_filter (List.mem_of_mem_take (htf ▸ hf)))
    obtain ⟨h1, h2⟩ := fixtureFold_bounds p tf 0 hmem
    have hlen : 0 < tf.length := by
      refine List.length_pos.mpr ?_
      intro hnil
      rw [hnil] at hemp
      simp at hemp
    have hlenq : (0 : ℚ) < (tf.length : ℚ) := by exact_mod_cast hlen
    constructor
    · exact mul_nonneg (div_nonneg h1 (le_of_lt hlenq)) (by norm_num)
    · have hdiv : (List.foldl
          (fun acc f =>
            if f.teamH == p.team then acc + (6 - (f.teamHDifficulty : ℚ)) * 1.1
            else acc + (6 - (f.teamADifficulty : ℚ)) * 0.9) 0 tf) /
          (tf.length : ℚ) ≤ 5.5 := by
        rw [div_le_iff₀ hlenq]
        simp only [zero_add] at h2
        nlinarith [h2]
      nlinarith [hdiv]

/-- The value sub-score lies in [0, 100] whenever the player's cumulative
points are non-negative. -/
theorem valueScore_bounds (p : Player) (history : Option History)
    (htp : 0 ≤ p.totalPoints) :
    0 ≤ valueScore p history ∧ valueScore p history ≤ 100 := by
  unfold valueScore
  refine ⟨le_min ?_ (by norm_num), min_le_right _ _⟩
  have htpq : (0 : ℚ) ≤ (p.totalPoints : ℚ) := by exact_mod_cast htp
  set lsp : ℤ := (match history with
    | some h =>
      match h.historyPast with
      | some past =>
        match past.getLast? with
        | some s => s.totalPoints
        | none => 0
      | none => 0
    | none => 0) with hlsp
  split_ifs with hprice hpos
  · have hl : (0 : ℚ) ≤ (lsp : ℚ) := by exact_mod_cast le_of_lt hpos
    have hnum : 0 ≤ (lsp : ℚ) * 0.8 + (p.totalPoints : ℚ) * 20 * 0.2 := by nlinarith
    exact mul_nonneg (div_nonneg hnum (le_of_lt hprice)) (by norm_num)
  · have hnum : 0 ≤ (p.totalPoints : ℚ) * 20 := by nlinarith
    exact mul_nonneg (div_nonneg hnum (le_of_lt hprice)) (by norm_num)
  · norm_num

/-- The expected-stats sub-score lies in [0, 100] for non-negative expected
inputs. -/
theorem expectedScore_bounds (p : Player) (xg xa xgc : ℚ)
    (hxg : 0 ≤ xg) (hxa : 0 ≤ xa) (_hxgc : 0 ≤ xgc) :
    0 ≤ expectedScore p xg xa xgc ∧ expectedScore p xg xa xgc ≤ 100 := by
  unfold expectedScore
  refine ⟨le_min ?_ (by norm_num), min_le_right _ _⟩
  have hmin : (0 : ℚ) < ((max p.minutes 1 : ℤ) : ℚ) := by
    have : (1 : ℤ) ≤ max p.minutes 1 := le_max_right _ _
    exact_mod_cast lt_of_lt_of_le Int.zero_lt_one this
  have hpos : (0 : ℤ) < max p.minutes 1 := by exact_mod_cast hmin
  rw [if_pos hpos, if_pos hpos]
  have hxg90 : 0 ≤ xg / ((max p.minutes 1 : ℤ) : ℚ) * 90 := by positivity
  have hxa90 : 0 ≤ xa / ((max p.minutes 1 : ℤ) : ℚ) * 90 := by positivity
  split_ifs
  · nlinarith
  · nlinarith
  · have h1 : (0:ℚ) ≤ max 0 (100 - xgc * 10) := le_max_left _ _
    nlinarith
  · exact le_max_left _ _

/-- The static set-piece table score is non-negative. -/
theorem getSetPieceScore_nonneg (name : String) : 0 ≤ getSetPieceScore name := by
  unfold getSetPieceScore
  split_ifs <;> norm_num

/-- The set-piece sub-score lies in [0, 100] unconditionally. -/
theorem setPieceScore_bounds (p : Player) (history : Option History) :
    0 ≤ setPieceScore p history ∧ setPieceScore p history ≤ 100 := by
  unfold setPieceScore
  refine ⟨le_min ?_ (by norm_num), min_le_right _ _⟩
  have hbase0 : 0 ≤ getSetPieceScore p.webName := getSetPieceScore_nonneg p.webName
  set b1 : ℚ := (match history with
    | some h =>
      if (historicalPenalties h).1 + (historicalPenalties h).2 ≥ 5 then
        max (getSetPieceScore p.webName) 20
      else if (historicalPenalties h).1 + (historicalPenalties h).2 ≥ 2 then
        max (getSetPieceScore p.webName) 10
      else getSetPieceScore p.webName
    | none => getSetPieceScore p.webName) with hb1
  have hb1nonneg : 0 ≤ b1 := by
    rw [hb1]
    match history with
    | none => exact hbase0
    | some h =>
      simp only
      split_ifs
      · exact le_trans hbase0 (le_max_left _ _)
      · exact le_trans hbase0 (le_max_left _ _)
      · exact hbase0
  split_ifs <;> nlinarith

/-- The recency multiplier stays in [0.8, 1.2] for indices inside the
considered window. -/
theorem recencyMultiplier_bounds (i n : ℕ) (h : i < n) :
    0.8 ≤ recencyMultiplier i n ∧ recencyMultiplier i n ≤ 1.2 := by
  unfold recencyMultiplier
  have hm1 : 1 ≤ max (n - 1) 1 := le_max_right _ _
  have him : i ≤ max (n - 1) 1 := by
    rcases Nat.lt_or_ge n 2 with h2 | h2
    · omega
    · have : i ≤ n - 1 := by omega
      exact le_trans this (le_max_left _ _)
  have hmq : (0 : ℚ) < ((max (n - 1) 1 : ℕ) : ℚ) := by exact_mod_cast hm1
  have himq : ((i : ℕ) : ℚ) ≤ ((max (n - 1) 1 : ℕ) : ℚ) := by exact_mod_cast him
  have hiq : (0 : ℚ) ≤ ((i : ℕ) : ℚ) := by positivity
  have hratio : 0.4 * (i : ℚ) / ((max (n - 1) 1 : ℕ) : ℚ) ≤ 0.4 := by
    rw [div_le_iff₀ hmq]
    nlinarith
  have hratio0 : 0 ≤ 0.4 * (i : ℚ) / ((max (n - 1) 1 : ℕ) : ℚ) := by positivity
  constructor <;> linarith

/-- Monotonicity facts for one step of the historical-score season loop. -/
theorem histStep_facts (n : ℕ) (acc : HistAcc) (x : ℕ × PastSeason)
    (hi : x.1 < n) (hpts : 0 ≤ x.2.totalPoints) :
    acc.weightedPts90 ≤ (histStep n acc x).weightedPts90 ∧
    acc.totalWeight ≤ (histStep n acc x).totalWeight ∧
    acc.totalMinutes ≤ (histStep n acc x).totalMinutes ∧
    (180 ≤ x.2.minutes → acc.totalWeight + 0.04 ≤ (histStep n acc x).totalWeight) := by
  unfold histStep
  by_cases hskip : x.2.minutes < 180
  · rw [if_pos hskip]
    exact ⟨le_refl _, le_refl _, le_refl _, fun habs => absurd habs (by omega)⟩
  · rw [if_neg hskip]
    have hmin : (180 : ℤ) ≤ x.2.minutes := by omega
    have hminq : (180 : ℚ) ≤ (x.2.minutes : ℚ) := by exact_mod_cast hmin
    have hpos : (0 : ℚ) < (x.2.minutes : ℚ) := by linarith
    have hposZ : x.2.minutes > 0 := by omega
    rw [if_pos hposZ]
    have hpts90 : 0 ≤ ((x.2.totalPoints : ℚ) / (x.2.minutes : ℚ)) * 90 := by
      have : (0 : ℚ) ≤ (x.2.totalPoints : ℚ) := by exact_mod_cast hpts
      positivity
    have hmw : (1 / 19 : ℚ) ≤ min ((x.2.minutes : ℚ) / 3420) 1 := by
      refine le_min ?_ (by norm_num)
      rw [le_div_iff₀ (by norm_num : (0:ℚ) < 3420)]
      linarith
    have hmw0 : (0 : ℚ) ≤ min ((x.2.minutes : ℚ) / 3420) 1 := by
      refine le_min ?_ (by norm_num)
      positivity
    obtain ⟨hrm1, hrm2⟩ := recencyMultiplier_bounds x.1 n hi
    have hw : (0.04 : ℚ) ≤ min ((x.2.minutes : ℚ) / 3420) 1 * recencyMultiplier x.1 n := by
      nlinarith
    have hw0 : (0 : ℚ) ≤ min ((x.2.minutes : ℚ) / 3420) 1 * recencyMultiplier x.1 n := by
      nlinarith
    refine ⟨?_, by simp; nlinarith, by simp; omega, fun _ => by simp; nlinarith⟩
    simp only
    nlinarith

/-- Monotonicity of the historical-score season fold. -/
theorem histFold_le (n : ℕ) (l : List (ℕ × PastSeason)) (acc : HistAcc)
    (hl : ∀ x ∈ l, x.1 < n ∧ 0 ≤ x.2.totalPoints) :
    acc.weightedPts90 ≤ (l.foldl (histStep n) acc).weightedPts90 ∧
    acc.totalWeight ≤ (l.foldl (histStep n) acc).totalWeight ∧
    acc.totalMinutes ≤ (l.foldl (histStep n) acc).totalMinutes := by
  induction l generalizing acc with
  | nil => exact ⟨le_refl _, le_refl _, le_refl _⟩
  | cons x t ih =>
    have hx := hl x (List.mem_cons_self x t)
    obtain ⟨s1, s2, s3, -⟩ := histStep_facts n acc x hx.1 hx.2
    obtain ⟨i1, i2, i3⟩ := ih (histStep n acc x) (fun y hy => hl y (List.mem_cons_of_mem x hy))
    exact ⟨le_trans s1 i1, le_trans s2 i2, le_trans s3 i3⟩

/-- A season with at least 180 minutes makes the total weight strictly
positive. -/
theorem histFold_weight_pos (n : ℕ) (l : List (ℕ × PastSeason)) (acc : HistAcc)
    (hl : ∀ x ∈ l, x.1 < n ∧ 0 ≤ x.2.totalPoints)
    (hex : ∃ x ∈ l, 180 ≤ x.2.minutes) :
    acc.totalWeight < (l.foldl (histStep n) acc).totalWeight := by
  induction l generalizing acc with
  | nil => simp at hex
  | cons x t ih =>
    have hx := hl x (List.mem_cons_self x t)
    have ht : ∀ y ∈ t, y.1 < n ∧ 0 ≤ y.2.totalPoints :=
      fun y hy => hl y (List.mem_cons_of_mem x hy)
    obtain ⟨s1, s2, s3, s4⟩ := histStep_facts n acc x hx.1 hx.2
    have hmono := (histFold_le n t (histStep n acc x) ht).2.1
    rcases hex with ⟨y, hy, hymin⟩
    rcases List.mem_cons.mp hy with heq | hyt
    · have hstrict := s4 (heq ▸ hymin)
      simp only [List.foldl_cons]
      linarith
    · have := ih (histStep n acc x) ht ⟨y, hyt, hymin⟩
      simp only [List.foldl_cons]
      linarith

/-- If no considered season reaches 180 minutes the fold is the identity. -/
theorem histFold_skip (n : ℕ) (l : List (ℕ × PastSeason)) (acc : HistAcc)
    (hall : ∀ x ∈ l, x.2.minutes < 180) :
    l.foldl (histStep n) acc = acc := by
  induction l generalizing acc with
  | nil => rfl
  | cons x t ih =>
    have hx : histStep n acc x = acc := by
      unfold histStep
      rw [if_pos (hall x (List.mem_cons_self x t))]
    simp only [List.foldl_cons, hx]
    exact ih acc (fun y hy => hall y (List.mem_cons_of_mem x hy))

/-- The reality-check best-season total is never negative. -/
theorem bestSeasonTotal_nonneg (seasons : List PastSeason) :
    0 ≤ bestSeasonTotal seasons := by
  unfold bestSeasonTotal
  suffices h : ∀ (l : List PastSeason) (acc : ℤ), acc ≤ l.foldl
      (fun best s => if s.minutes > 1800 then max best s.totalPoints else best) acc by
    exact h seasons 0
  intro l
  induction l with
  | nil => exact fun acc => le_refl _
  | cons s t ih =>
    intro acc
    simp only [List.foldl_cons]
    refine le_trans ?_ (ih _)
    split_ifs
    · exact le_max_left _ _
    · exact le_refl _

/-- The monotonic step function is non-negative on non-negative projections. -/
theorem projectedToBase_nonneg (x : ℚ) (hx : 0 ≤ x) : 0 ≤ projectedToBase x := by
  unfold projectedToBase
  split_ifs <;> linarith

/-- The paths of `_calculate_historical_score` that clamp: either there is no
usable history at all (early returns) or some considered season reaches 180
minutes (main path).  The remaining path — a history whose considered seasons
all have fewer than 180 minutes — is the unclamped fallback. -/
def usableHistory (history : Option History) : Prop :=
  match history with
  | none => True
  | some h =>
    match h.historyPast with
    | none => True
    | some past => past.isEmpty = true ∨ ∃ s ∈ lastN 3 past, 180 ≤ s.minutes

/-- Bounds for the main path of the historical score: non-negative; at most
100 when some considered season reaches 180 minutes; exactly the unclamped
`total_points * 2.5` fallback otherwise. -/
theorem historicalScoreMain_bounds (p : Player) (past : List PastSeason)
    (htp : 0 ≤ p.totalPoints)
    (hseasonpts : ∀ s ∈ lastN 3 past, 0 ≤ s.totalPoints) :
    0 ≤ historicalScoreMain p past ∧
    ((∃ s ∈ lastN 3 past, 180 ≤ s.minutes) → historicalScoreMain p past ≤ 100) ∧
    ((∀ s ∈ lastN 3 past, s.minutes < 180) →
      historicalScoreMain p past = (p.totalPoints : ℚ) * 2.5) := by
  have htpq : (0 : ℚ) ≤ (p.totalPoints : ℚ) := by exact_mod_cast htp
  have henum : ∀ x ∈ (lastN 3 past).enum, x.1 < (lastN 3 past).length ∧
      0 ≤ x.2.totalPoints := by
    intro x hx
    rw [List.mem_enum_iff_getElem?] at hx
    obtain ⟨hlt, hget⟩ := List.getElem?_eq_some.mp hx
    exact ⟨hlt, hseasonpts _ (hget ▸ List.getElem_mem hlt)⟩
  obtain ⟨hwp, htw, htm⟩ := histFold_le (lastN 3 past).length
    (lastN 3 past).enum ⟨0, 0, 0, false⟩ henum
  simp only at hwp htw htm
  unfold historicalScoreMain
  simp only
  set acc := (lastN 3 past).enum.foldl (histStep (lastN 3 past).length)
    ⟨0, 0, 0, false⟩ with hacc
  by_cases hpos : acc.totalWeight > 0
  · rw [if_pos hpos]
    have hproj0 : 0 ≤ acc.weightedPts90 / acc.totalWeight :=
      div_nonneg hwp (le_of_lt hpos)
    have hstage1 : 0 ≤ (if acc.totalMinutes < 900 then
        acc.weightedPts90 / acc.totalWeight * ((acc.totalMinutes : ℚ) / 900)
        else acc.weightedPts90 / acc.totalWeight) := by
      split_ifs
      · have : (0:ℚ) ≤ (acc.totalMinutes : ℚ) := by exact_mod_cast htm
        positivity
      · exact hproj0
    have hbest : (0:ℚ) ≤ ((bestSeasonTotal (lastN 3 past) : ℤ) : ℚ) := by
      exact_mod_cast bestSeasonTotal_nonneg (lastN 3 past)
    refine ⟨?_, fun _ => le_trans (min_le_right _ _) (by norm_num), fun hall => ?_⟩
    · refine le_min ?_ (by norm_num)
      refine projectedToBase_nonneg _ ?_
      have hm900 : (0:ℚ) ≤ (acc.totalMinutes : ℚ) := by exact_mod_cast htm
      have hA : 0 ≤ acc.weightedPts90 / acc.totalWeight * ((acc.totalMinutes : ℚ) / 900) :=
        mul_nonneg hproj0 (div_nonneg hm900 (by norm_num))
      split_ifs <;> nlinarith [hA, hproj0, hbest]
    · exfalso
      have hallenum : ∀ x ∈ (lastN 3 past).enum, x.2.minutes < 180 := by
        intro x hx
        rw [List.mem_enum_iff_getElem?] at hx
        obtain ⟨hlt, hget⟩ := List.getElem?_eq_some.mp hx
        exact hall _ (hget ▸ List.getElem_mem hlt)
      have hid := histFold_skip (lastN 3 past).length (lastN 3 past).enum
        ⟨0, 0, 0, false⟩ hallenum
      rw [hacc, hid] at hpos
      simp at hpos
  · rw [if_neg hpos]
    refine ⟨by nlinarith, fun hex => ?_, fun _ => rfl⟩
    exfalso
    rcases hex with ⟨s, hs, hsmin⟩
    obtain ⟨i, hi, hgeti⟩ := List.mem_iff_getElem.mp hs
    have hmem : (i, s) ∈ (lastN 3 past).enum := by
      rw [List.mk_mem_enum_iff_getElem?]
      rw [List.getElem?_eq_getElem hi, hgeti]
    have hlt := histFold_weight_pos (lastN 3 past).length (lastN 3 past).enum
      ⟨0, 0, 0, false⟩ henum ⟨(i, s), hmem, hsmin⟩
    simp only at hlt
    rw [← hacc] at hlt
    exact hpos hlt

/-- The historical sub-score is non-negative for non-negative point inputs; it
is clamped to at most 100 on every path except the fallback, where it returns
`total_points * 2.5` unclamped. -/
theorem historicalScore_bounds (p : Player) (history : Option History)
    (htp : 0 ≤ p.totalPoints)
    (hpast : ∀ h past, history = some h → h.historyPast = some past →
      ∀ s ∈ past, 0 ≤ s.totalPoints) :
    0 ≤ historicalScore p history ∧
    (usableHistory history → historicalScore p history ≤ 100) ∧
    (¬usableHistory history →
      historicalScore p history = (p.totalPoints : ℚ) * 2.5) := by
  have htpq : (0 : ℚ) ≤ (p.totalPoints : ℚ) := by exact_mod_cast htp
  have hearly : 0 ≤ min ((p.totalPoints : ℚ) * 0.5) 10 ∧
      min ((p.totalPoints : ℚ) * 0.5) 10 ≤ 100 := by
    constructor
    · exact le_min (by nlinarith) (by norm_num)
    · exact le_trans (min_le_right _ _) (by norm_num)
  match history with
  | none =>
    rw [show historicalScore p none = min ((p.totalPoints : ℚ) * 0.5) 10 from rfl]
    exact ⟨hearly.1, fun _ => hearly.2, fun habs => absurd trivial habs⟩
  | some hh =>
    match hhp : hh.historyPast with
    | none =>
      have heq : historicalScore p (some hh) = min ((p.totalPoints : ℚ) * 0.5) 10 := by
        rw [historicalScore, hhp]
      rw [heq]
      refine ⟨hearly.1, fun _ => hearly.2, fun habs => ?_⟩
      exact absurd (by rw [usableHistory, hhp]; trivial) habs
    | some past =>
      have husable : usableHistory (some hh) ↔
          (past.isEmpty = true ∨ ∃ s ∈ lastN 3 past, 180 ≤ s.minutes) := by
        rw [usableHistory, hhp]
      by_cases hemp : past.isEmpty
      · have heq : historicalScore p (some hh) = min ((p.totalPoints : ℚ) * 0.5) 10 := by
          rw [historicalScore, hhp]
          simp [hemp]
        rw [heq]
        refine ⟨hearly.1, fun _ => hearly.2, fun habs => ?_⟩
        exact absurd (husable.mpr (Or.inl hemp)) habs
      · have heq : historicalScore p (some hh) = historicalScoreMain p past := by
          rw [historicalScore, hhp]
          simp [hemp]
        rw [heq]
        have hseasonpts : ∀ s ∈ lastN 3 past, 0 ≤ s.totalPoints := by
          intro s hs
          exact hpast hh past rfl hhp s (List.drop_subset _ past hs)
        obtain ⟨m1, m2, m3⟩ := historicalScoreMain_bounds p past htp hseasonpts
        refine ⟨m1, fun hus => ?_, fun hnus => ?_⟩
        · rcases husable.mp hus with habs | hex
          · exact absurd habs hemp
          · exact m2 hex
        · refine m3 fun s hs => ?_
          by_contra hge
          exact hnus (husable.mpr (Or.inr ⟨s, hs, by omega⟩))

/-- C3 (amended): for valid inputs (non-negative points, form, past-season
points and expected stats, difficulty ratings in 1..5) every sub-score lies in
[0, 100] EXCEPT: the form sub-score is clamped only from above and lies in
[-10, 100]; the fixture sub-score is not clamped and lies in [0, 110]; the
historical sub-score is in [0, 100] on every path except the fallback (history
present but no considered season reaches 180 minutes), where it returns the
unclamped non-negative value `total_points * 2.5`.  No sub-score raises or is
undefined: each is a total function of its inputs. -/
theorem subscores_in_range (p : Player) (history : Option History)
    (fixtures : List FixtureData) (tin tout : ℤ) (xg xa xgc : ℚ)
    (htp : 0 ≤ p.totalPoints) (hform : 0 ≤ p.form)
    (hpast : ∀ h past, history = some h → h.historyPast = some past →
      ∀ s ∈ past, 0 ≤ s.totalPoints)
    (hfix : ∀ f ∈ fixtures, 1 ≤ f.teamHDifficulty ∧ f.teamHDifficulty ≤ 5 ∧
      1 ≤ f.teamADifficulty ∧ f.teamADifficulty ≤ 5)
    (hxg : 0 ≤ xg) (hxa : 0 ≤ xa) (hxgc : 0 ≤ xgc) :
    (0 ≤ (calculateSubScores p history fixtures tin tout xg xa xgc).historical ∧
      (usableHistory history →
        (calculateSubScores p history fixtures tin tout xg xa xgc).historical ≤ 100) ∧
      (¬usableHistory history →
        (calculateSubScores p history fixtures tin tout xg xa xgc).historical =
          (p.totalPoints : ℚ) * 2.5)) ∧
    (-10 ≤ (calculateSubScores p history fixtures tin tout xg xa xgc).form ∧
      (calculateSubScores p history fixtures tin tout xg xa xgc).form ≤ 100) ∧
    (0 ≤ (calculateSubScores p history fixtures tin tout xg xa xgc).fixtures ∧
      (calculateSubScores p history fixtures tin tout xg xa xgc).fixtures ≤ 110) ∧
    (0 ≤ (calculateSubScores p history fixtures tin tout xg xa xgc).value ∧
      (calculateSubScores p history fixtures tin tout xg xa xgc).value ≤ 100) ∧
    (0 ≤ (calculateSubScores p history fixtures tin tout xg xa xgc).ownership ∧
      (calculateSubScores p history fixtures tin tout xg xa xgc).ownership ≤ 100) ∧
    (0 ≤ (calculateSubScores p history fixtures tin tout xg xa xgc).expected ∧
      (calculateSubScores p history fixtures tin tout xg xa xgc).expected ≤ 100) ∧
    (0 ≤ (calculateSubScores p history fixtures tin tout xg xa xgc).setPieces ∧
      (calculateSubScores p history fixtures tin tout xg xa xgc).setPieces ≤ 100) := by
  simp only [calculateSubScores]
  exact ⟨historicalScore_bounds p history htp hpast,
    formScore_bounds p tin tout hform,
    fixtureScore_bounds p fixtures hfix,
    valueScore_bounds p history htp,
    ownershipScore_bounds p,
    expectedScore_bounds p xg xa xgc hxg hxa hxgc,
    setPieceScore_bounds p history⟩

/-- Witness for C3: concrete evaluation of all seven sub-scores. -/
theorem subscores_in_range_witness :
    (0 ≤ (calculateSubScores plainPlayer (some ⟨some [strongSeason]⟩)
        [easyHomeFixture] 0 0 1 1 1).historical ∧
      (usableHistory (some ⟨some [strongSeason]⟩) →
        (calculateSubScores plainPlayer (some ⟨some [strongSeason]⟩)
          [easyHomeFixture] 0 0 1 1 1).historical ≤ 100) ∧
      (¬usableHistory (some ⟨some [strongSeason]⟩) →
        (calculateSubScores plainPlayer (some ⟨some [strongSeason]⟩)
          [easyHomeFixture] 0 0 1 1 1).historical =
            ((plainPlayer.totalPoints : ℤ) : ℚ) * 2.5)) ∧
    (-10 ≤ (calculateSubScores plainPlayer (some ⟨some [strongSeason]⟩)
        [easyHomeFixture] 0 0 1 1 1).form ∧
      (calculateSubScores plainPlayer (some ⟨some [strongSeason]⟩)
        [easyHomeFixture] 0 0 1 1 1).form ≤ 100) ∧
    (0 ≤ (calculateSubScores plainPlayer (some ⟨some [strongSeason]⟩)
        [easyHomeFixture] 0 0 1 1 1).fixtures ∧
      (calculateSubScores plainPlayer (some ⟨some [strongSeason]⟩)
        [easyHomeFixture] 0 0 1 1 1).fixtures ≤ 110) ∧
    (0 ≤ (calculateSubScores plainPlayer (some ⟨some [strongSeason]⟩)
        [easyHomeFixture] 0 0 1 1 1).value ∧
      (calculateSubScores plainPlayer (some ⟨some [strongSeason]⟩)
        [easyHomeFixture] 0 0 1 1 1).value ≤ 100) ∧
    (0 ≤ (calculateSubScores plainPlayer (some ⟨some [strongSeason]⟩)
        [easyHomeFixture] 0 0 1 1 1).ownership ∧
      (calculateSubScores plainPlayer (some ⟨some [strongSeason]⟩)
        [easyHomeFixture] 0 0 1 1 1).ownership ≤ 100) ∧
    (0 ≤ (calculateSubScores plainPlayer (some ⟨some [strongSeason]⟩)
        [easyHomeFixture] 0 0 1 1 1).expected ∧
      (calculateSubScores plainPlayer (some ⟨some [strongSeason]⟩)
        [easyHomeFixture] 0 0 1 1 1).expected ≤ 100) ∧
    (0 ≤ (calculateSubScores plainPlayer (some ⟨some [strongSeason]⟩)
        [easyHomeFixture] 0 0 1 1 1).setPieces ∧
      (calculateSubScores plainPlayer (some ⟨some [strongSeason]⟩)
        [easyHomeFixture] 0 0 1 1 1).setPieces ≤ 100) :=
  subscores_in_range plainPlayer (some ⟨some [strongSeason]⟩) [easyHomeFixture]
    0 0 1 1 1
    (by decide)
    (by norm_num [plainPlayer])
    (by
      intro h past heq hpeq s hs
      injection heq with heq
      subst heq
      simp only [History.historyPast] at hpeq
      injection hpeq with hpeq
      subst hpeq
      simp only [List.mem_singleton] at hs
      subst hs
      decide)
    (by decide)
    (by norm_num) (by norm_num) (by norm_num)

/-! ### C9: the Squad model's starting-XI / bench partition -/

/-- Numeric facts about every enumerated valid formation. -/
theorem validFormation_facts (f : ℤ × ℤ × ℤ × ℤ) (h : f ∈ validFormations) :
    f.1.toNat = 1 ∧ f.2.1.toNat + f.2.2.1.toNat + f.2.2.2.toNat = 10 ∧
    f.2.1.toNat ≤ 5 ∧ f.2.2.1.toNat ≤ 5 ∧ f.2.2.2.toNat ≤ 3 ∧ f.1 = 1 := by
  fin_cases h <;> refine ⟨rfl, ?_, ?_, ?_, ?_, rfl⟩ <;> decide

/-- Members of a sorted-filtered-take position chunk lie in the pool and carry
the filtered element type. -/
theorem mem_chunk {players : List Player} {key : Player → ℚ} {t : ℤ} {k : ℕ}
    {p : Player}
    (hp : p ∈ (sortDesc key (players.filter (fun q => q.elementType == t))).take k) :
    p ∈ players ∧ p.elementType = t := by
  have h1 := mem_sortDesc.mp (List.mem_of_mem_take hp)
  refine ⟨List.mem_of_mem_filter h1, ?_⟩
  have h2 := List.of_mem_filter h1
  simpa using h2

/-- A position chunk realises its requested length when enough players of that
type exist. -/
theorem chunk_length {players : List Player} (key : Player → ℚ) (t : ℤ) (k : ℕ)
    (hk : k ≤ (players.filter (fun q => q.elementType == t)).length) :
    ((sortDesc key (players.filter (fun q => q.elementType == t))).take k).length = k := by
  rw [List.length_take, sortDesc_length]
  omega

/-- The ids of a position chunk are distinct when the pool's ids are. -/
theorem chunk_ids_nodup {players : List Player} (key : Player → ℚ) (t : ℤ) (k : ℕ)
    (hnodup : (players.map Player.id).Nodup) :
    (((sortDesc key (players.filter (fun q => q.elementType == t))).take k).map
      Player.id).Nodup := by
  have h1 : ((players.filter (fun q => q.elementType == t)).map Player.id).Nodup :=
    List.Nodup.sublist ((players.filter_sublist).map Player.id) hnodup
  have h2 : ((sortDesc key (players.filter (fun q => q.elementType == t))).map
      Player.id).Nodup :=
    (((sortDesc_perm key _).map Player.id).nodup_iff).mpr h1
  exact List.Nodup.sublist ((List.take_sublist k _).map Player.id) h2

/-- Filtering by a predicate on an image commutes with mapping for lengths. -/
theorem length_filter_comp_map {α β : Type} (f : α → β) (q : β → Bool) (l : List α) :
    (l.filter (fun a => q (f a))).length = ((l.map f).filter q).length := by
  induction l with
  | nil => rfl
  | cons a t ih =>
    simp only [List.map_cons, List.filter_cons]
    by_cases h : q (f a) = true
    · rw [if_pos h, if_pos h]
      simp [ih]
    · rw [if_neg h, if_neg h]
      exact ih

/-- Filtering a nodup-id pool down to the ids of a nodup-id sub-list contained
in it keeps exactly the sub-list's length. -/
theorem length_filter_mem_ids (players sub : List Player)
    (hnodup : (players.map Player.id).Nodup)
    (hsubnodup : (sub.map Player.id).Nodup)
    (hsub : ∀ p ∈ sub, p ∈ players) :
    (players.filter (fun p => (sub.map Player.id).contains p.id)).length =
      sub.length := by
  rw [length_filter_comp_map Player.id (fun i => (sub.map Player.id).contains i) players]
  have hS2L : ∀ i ∈ sub.map Player.id, i ∈ players.map Player.id := by
    intro i hi
    obtain ⟨p, hp, rfl⟩ := List.mem_map.mp hi
    exact List.mem_map.mpr ⟨p, hsub p hp, rfl⟩
  have hfiltnodup : ((players.map Player.id).filter
      (fun i => (sub.map Player.id).contains i)).Nodup :=
    List.Nodup.filter _ hnodup
  have hperm : List.Perm
      ((players.map Player.id).filter (fun i => (sub.map Player.id).contains i))
      (sub.map Player.id) := by
    rw [List.perm_ext_iff_of_nodup hfiltnodup hsubnodup]
    intro i
    simp only [List.mem_filter]
    constructor
    · rintro ⟨-, hc⟩
      simpa using hc
    · intro hi
      exact ⟨hS2L i hi, by simpa using hi⟩
  have := hperm.length_eq
  rw [this, List.length_map]

/-- Ids of two position chunks of different element types never meet. -/
theorem chunk_ids_disjoint {players : List Player} {key key' : Player → ℚ}
    {t t' : ℤ} {k k' : ℕ} (hnodup : (players.map Player.id).Nodup) (hne : t ≠ t') :
    List.Disjoint
      (((sortDesc key (players.filter (fun q => q.elementType == t))).take k).map
        Player.id)
      (((sortDesc key' (players.filter (fun q => q.elementType == t'))).take k').map
        Player.id) := by
  intro i hi hi'
  obtain ⟨p, hp, rfl⟩ := List.mem_map.mp hi
  obtain ⟨q, hq, hqi⟩ := List.mem_map.mp hi'
  obtain ⟨hpmem, hpt⟩ := mem_chunk hp
  obtain ⟨hqmem, hqt⟩ := mem_chunk hq
  have heq : q = p := eq_of_id_eq hnodup hqmem hpmem hqi
  exact hne (by rw [← hpt, ← hqt, heq])

/-- The starting XI of the `Squad` model has pairwise-distinct ids. -/
theorem startingXiOf_ids_nodup (players : List Player) (f : ℤ × ℤ × ℤ × ℤ)
    (hnodup : (players.map Player.id).Nodup) :
    ((startingXiOf players f).map Player.id).Nodup := by
  rw [startingXiOf]
  rw [List.map_append, List.map_append, List.map_append,
    List.append_assoc, List.append_assoc]
  refine List.nodup_append.mpr ⟨chunk_ids_nodup _ 1 _ hnodup, ?_, ?_⟩
  · refine List.nodup_append.mpr ⟨chunk_ids_nodup _ 2 _ hnodup, ?_, ?_⟩
    · refine List.nodup_append.mpr ⟨chunk_ids_nodup _ 3 _ hnodup,
        chunk_ids_nodup _ 4 _ hnodup, ?_⟩
      exact chunk_ids_disjoint hnodup (by decide)
    · rw [List.disjoint_append_right]
      exact ⟨chunk_ids_disjoint hnodup (by decide),
        chunk_ids_disjoint hnodup (by decide)⟩
  · rw [List.disjoint_append_right, List.disjoint_append_right]
    exact ⟨chunk_ids_disjoint hnodup (by decide),
      chunk_ids_disjoint hnodup (by decide),
      chunk_ids_disjoint hnodup (by decide)⟩

/-- C9: for a `Squad` of 15 distinct-id players with position counts
{2, 5, 5, 3} and a valid formation, `get_starting_xi` returns exactly 11
players whose per-position counts are the formation's counts (the top
`total_points` players of each position by construction), `get_bench` returns
exactly the remaining 4, and the two lists are disjoint and together cover the
squad. -/
theorem squad_xi_bench_partition (s : Squad) (f : ℤ × ℤ × ℤ × ℤ)
    (hf : s.formation = some f) (hvalid : f ∈ validFormations)
    (hnodup : (s.players.map Player.id).Nodup)
    (hlen : s.players.length = 15)
    (h1 : (s.players.filter (fun p => p.elementType == 1)).length = 2)
    (h2 : (s.players.filter (fun p => p.elementType == 2)).length = 5)
    (h3 : (s.players.filter (fun p => p.elementType == 3)).length = 5)
    (h4 : (s.players.filter (fun p => p.elementType == 4)).length = 3) :
    (s.getStartingXi).length = 11 ∧
    ((s.getStartingXi).filter (fun p => p.elementType == 1)).length = f.1.toNat ∧
    ((s.getStartingXi).filter (fun p => p.elementType == 2)).length = f.2.1.toNat ∧
    ((s.getStartingXi).filter (fun p => p.elementType == 3)).length = f.2.2.1.toNat ∧
    ((s.getStartingXi).filter (fun p => p.elementType == 4)).length = f.2.2.2.toNat ∧
    (s.getBench).length = 4 ∧
    (∀ p ∈ s.getStartingXi, p ∈ s.players) ∧
    (∀ p ∈ s.getBench, p ∈ s.players) ∧
    (∀ p ∈ s.players, p ∈ s.getStartingXi ∨ p ∈ s.getBench) ∧
    (∀ p ∈ s.getStartingXi, p ∉ s.getBench) := by
  obtain ⟨hgk1, hsum, hd5, hm5, hfw3, -⟩ := validFormation_facts f hvalid
  have hxieq : s.getStartingXi = startingXiOf s.players f := by
    rw [Squad.getStartingXi, hf]
  have hlenxi : (s.getStartingXi).length = 11 := by
    rw [hxieq, startingXiOf]
    simp only [List.length_append]
    rw [chunk_length _ 1 _ (by omega), chunk_length _ 2 _ (by omega),
      chunk_length _ 3 _ (by omega), chunk_length _ 4 _ (by omega)]
    omega
  have hsame : ∀ (t : ℤ) (k : ℕ),
      ((sortDesc (fun p => (p.totalPoints : ℚ))
        (s.players.filter (fun q => q.elementType == t))).take k).filter
        (fun p => p.elementType == t) =
      (sortDesc (fun p => (p.totalPoints : ℚ))
        (s.players.filter (fun q => q.elementType == t))).take k := by
    intro t k
    refine List.filter_eq_self.mpr fun p hp => ?_
    have := (mem_chunk hp).2
    simpa using this
  have hdiff : ∀ (t t' : ℤ) (k : ℕ), t ≠ t' →
      ((sortDesc (fun p => (p.totalPoints : ℚ))
        (s.players.filter (fun q => q.elementType == t))).take k).filter
        (fun p => p.elementType == t') = [] := by
    intro t t' k hne
    refine List.filter_eq_nil_iff.mpr fun p hp hpred => ?_
    have h := (mem_chunk hp).2
    rw [beq_iff_eq] at hpred
    exact hne (by rw [← h, hpred])
  have hcounts : ∀ t' : ℤ,
      ((s.getStartingXi).filter (fun p => p.elementType == t')).length =
      (((sortDesc (fun p => (p.totalPoints : ℚ))
          (s.players.filter (fun q => q.elementType == 1))).take f.1.toNat).filter
          (fun p => p.elementType == t')).length +
      ((((sortDesc (fun p => (p.totalPoints : ℚ))
          (s.players.filter (fun q => q.elementType == 2))).take f.2.1.toNat).filter
          (fun p => p.elementType == t')).length +
      ((((sortDesc (fun p => (p.totalPoints : ℚ))
          (s.players.filter (fun q => q.elementType == 3))).take f.2.2.1.toNat).filter
          (fun p => p.elementType == t')).length +
      (((sortDesc (fun p => (p.totalPoints : ℚ))
          (s.players.filter (fun q => q.elementType == 4))).take f.2.2.2.toNat).filter
          (fun p => p.elementType == t')).length)) := by
    intro t'
    rw [hxieq, startingXiOf, List.filter_append, List.filter_append,
      List.filter_append, List.length_append, List.length_append,
      List.length_append]
    omega
  have hc1 : ((s.getStartingXi).filter (fun p => p.elementType == 1)).length =
      f.1.toNat := by
    rw [hcounts 1, hsame 1, hdiff 2 1 _ (by decide), hdiff 3 1 _ (by decide),
      hdiff 4 1 _ (by decide), chunk_length _ 1 _ (by omega)]
    simp
  have hc2 : ((s.getStartingXi).filter (fun p => p.elementType == 2)).length =
      f.2.1.toNat := by
    rw [hcounts 2, hsame 2, hdiff 1 2 _ (by decide), hdiff 3 2 _ (by decide),
      hdiff 4 2 _ (by decide), chunk_length _ 2 _ (by omega)]
    simp
  have hc3 : ((s.getStartingXi).filter (fun p => p.elementType == 3)).length =
      f.2.2.1.toNat := by
    rw [hcounts 3, hsame 3, hdiff 1 3 _ (by decide), hdiff 2 3 _ (by decide),
      hdiff 4 3 _ (by decide), chunk_length _ 3 _ (by omega)]
    simp
  have hc4 : ((s.getStartingXi).filter (fun p => p.elementType == 4)).length =
      f.2.2.2.toNat := by
    rw [hcounts 4, hsame 4, hdiff 1 4 _ (by decide), hdiff 2 4 _ (by decide),
      hdiff 3 4 _ (by decide), chunk_length _ 4 _ (by omega)]
    simp
  have hxisub : ∀ p ∈ s.getStartingXi, p ∈ s.players := by
    intro p hp
    rw [hxieq] at hp
    simp only [startingXiOf, List.mem_append] at hp
    rcases hp with ((hp | hp) | hp) | hp <;> exact (mem_chunk hp).1
  have hxinodup : ((s.getStartingXi).map Player.id).Nodup := by
    rw [hxieq]
    exact startingXiOf_ids_nodup s.players f hnodup
  have hfilterlen : (s.players.filter
      (fun p => ((s.getStartingXi).map Player.id).contains p.id)).length = 11 := by
    rw [length_filter_mem_ids s.players (s.getStartingXi) hnodup hxinodup hxisub]
    exact hlenxi
  have hbencheq : s.getBench = s.players.filter
      (fun p => !((s.getStartingXi).map Player.id).contains p.id) := rfl
  have hbenchlen : (s.getBench).length = 4 := by
    have hsplit := length_filter_add_length_filter_not s.players
      (fun p => ((s.getStartingXi).map Player.id).contains p.id)
    rw [hfilterlen, hlen] at hsplit
    rw [hbencheq]
    omega
  refine ⟨hlenxi, hc1, hc2, hc3, hc4, hbenchlen, hxisub, ?_, ?_, ?_⟩
  · intro p hp
    rw [hbencheq] at hp
    exact List.mem_of_mem_filter hp
  · intro p hp
    by_cases hc : ((s.getStartingXi).map Player.id).contains p.id
    · left
      have : p.id ∈ (s.getStartingXi).map Player.id := by simpa using hc
      obtain ⟨q, hq, hqid⟩ := List.mem_map.mp this
      have heq : q = p := eq_of_id_eq hnodup (hxisub q hq) hp hqid
      exact heq ▸ hq
    · right
      rw [hbencheq]
      refine List.mem_filter.mpr ⟨hp, ?_⟩
      simp only [Bool.not_eq_true] at hc
      show (!(List.map Player.id s.getStartingXi).contains p.id) = true
      rw [hc]
      rfl
  · intro p hp hpb
    rw [hbencheq] at hpb
    have hpred := List.of_mem_filter hpb
    have : p.id ∈ (s.getStartingXi).map Player.id :=
      List.mem_map.mpr ⟨p, hp, rfl⟩
    simp [this] at hpred

/-- A concrete squad over the feasible pool with the 4-4-2 formation. -/
def witnessSquad : Squad := ⟨feasiblePool, some (1, 4, 4, 2), 100, [], []⟩

/-- Witness for C9: concrete partition of the witness squad. -/
theorem squad_xi_bench_partition_witness :
    (witnessSquad.getStartingXi).length = 11 ∧
    ((witnessSquad.getStartingXi).filter (fun p => p.elementType == 1)).length =
      ((1, 4, 4, 2) : ℤ × ℤ × ℤ × ℤ).1.toNat ∧
    ((witnessSquad.getStartingXi).filter (fun p => p.elementType == 2)).length =
      ((1, 4, 4, 2) : ℤ × ℤ × ℤ × ℤ).2.1.toNat ∧
    ((witnessSquad.getStartingXi).filter (fun p => p.elementType == 3)).length =
      ((1, 4, 4, 2) : ℤ × ℤ × ℤ × ℤ).2.2.1.toNat ∧
    ((witnessSquad.getStartingXi).filter (fun p => p.elementType == 4)).length =
      ((1, 4, 4, 2) : ℤ × ℤ × ℤ × ℤ).2.2.2.toNat ∧
    (witnessSquad.getBench).length = 4 ∧
    (∀ p ∈ witnessSquad.getStartingXi, p ∈ witnessSquad.players) ∧
    (∀ p ∈ witnessSquad.getBench, p ∈ witnessSquad.players) ∧
    (∀ p ∈ witnessSquad.players,
      p ∈ witnessSquad.getStartingXi ∨ p ∈ witnessSquad.getBench) ∧
    (∀ p ∈ witnessSquad.getStartingXi, p ∉ witnessSquad.getBench) :=
  squad_xi_bench_partition witnessSquad (1, 4, 4, 2) rfl (by decide)
    (by decide) (by decide) (by decide) (by decide) (by decide) (by decide)

/-! ### C4: lineup selection -/

/-- A pool whose element types are all in 1..4 splits into the four position
filters. -/
theorem filter_partition_perm (players : List Player)
    (helem : ∀ p ∈ players, p.elementType = 1 ∨ p.elementType = 2 ∨
      p.elementType = 3 ∨ p.elementType = 4) :
    List.Perm
      (players.filter (fun p => p.elementType == 1) ++
       players.filter (fun p => p.elementType == 2) ++
       players.filter (fun p => p.elementType == 3) ++
       players.filter (fun p => p.elementType == 4)) players := by
  rw [List.perm_iff_count]
  intro a
  rw [List.count_append, List.count_append, List.count_append]
  have hcnt : ∀ t : ℤ, (players.filter (fun p => p.elementType == t)).count a =
      if a.elementType = t then players.count a else 0 := by
    intro t
    by_cases h : a.elementType = t
    · rw [if_pos h]
      exact List.count_filter (by simpa using h)
    · rw [if_neg h]
      rw [List.count_eq_zero]
      intro hmem
      exact h (by simpa using (List.of_mem_filter hmem))
  rw [hcnt 1, hcnt 2, hcnt 3, hcnt 4]
  by_cases hmem : a ∈ players
  · rcases helem a hmem with h | h | h | h <;> simp [h]
  · have hz : players.count a = 0 := List.count_eq_zero.mpr hmem
    simp [hz]

/-- The formation-search step never discards an already-found lineup. -/
theorem formationStep_isSome (defs mids fwds : List Player)
    (scores : ℤ → Option ℚ) (acc : FormationAcc) (f : ℤ × ℤ × ℤ × ℤ)
    (h : acc.best.isSome = true) :
    ((formationStep defs mids fwds scores acc f).best).isSome = true := by
  unfold formationStep
  dsimp only
  split_ifs <;> simp_all

/-- What the formation search records when it has found a lineup: a valid
formation that fits the available players, together with the top players of
each outfield position. -/
def FormationInv (defs mids fwds : List Player) (acc : FormationAcc) : Prop :=
  acc.best = none ∨ ∃ f lineup, acc.best = some (f, lineup) ∧
    f ∈ validFormations ∧
    f.2.1.toNat ≤ defs.length ∧ f.2.2.1.toNat ≤ mids.length ∧
    f.2.2.2.toNat ≤ fwds.length ∧
    lineup = defs.take f.2.1.toNat ++ mids.take f.2.2.1.toNat ++
      fwds.take f.2.2.2.toNat

/-- One search step preserves the invariant. -/
theorem formationStep_inv (defs mids fwds : List Player)
    (scores : ℤ → Option ℚ) (acc : FormationAcc) (f : ℤ × ℤ × ℤ × ℤ)
    (hf : f ∈ validFormations)
    (h : FormationInv defs mids fwds acc) :
    FormationInv defs mids fwds (formationStep defs mids fwds scores acc f) := by
  unfold formationStep
  by_cases hskip : (defs.length < f.2.1.toNat || mids.length < f.2.2.1.toNat ||
      fwds.length < f.2.2.2.toNat) = true
  · rw [if_pos hskip]
    exact h
  · rw [if_neg hskip]
    simp only [Bool.or_eq_true, decide_eq_true_eq, not_or] at hskip
    by_cases hbetter : ((defs.take f.2.1.toNat ++ mids.take f.2.2.1.toNat ++
        fwds.take f.2.2.2.toNat).map (effScore scores)).sum > acc.bestScore
    · rw [if_pos hbetter]
      right
      exact ⟨f, _, rfl, hf, by omega, by omega, by omega, rfl⟩
    · rw [if_neg hbetter]
      exact h

/-- The whole formation fold preserves the invariant. -/
theorem formationFold_inv (defs mids fwds : List Player)
    (scores : ℤ → Option ℚ) (fs : List (ℤ × ℤ × ℤ × ℤ))
    (hfs : ∀ f ∈ fs, f ∈ validFormations) (acc : FormationAcc)
    (h : FormationInv defs mids fwds acc) :
    FormationInv defs mids fwds
      (fs.foldl (formationStep defs mids fwds scores) acc) := by
  induction fs generalizing acc with
  | nil => exact h
  | cons f t ih =>
    simp only [List.foldl_cons]
    exact ih (fun g hg => hfs g (List.mem_cons_of_mem f hg)) _
      (formationStep_inv defs mids fwds scores acc f
        (hfs f (List.mem_cons_self f t)) h)

/-- The whole formation fold never discards an already-found lineup. -/
theorem formationFold_isSome (defs mids fwds : List Player)
    (scores : ℤ → Option ℚ) (fs : List (ℤ × ℤ × ℤ × ℤ)) (acc : FormationAcc)
    (h : acc.best.isSome = true) :
    ((fs.foldl (formationStep defs mids fwds scores) acc).best).isSome = true := by
  induction fs generalizing acc with
  | nil => exact h
  | cons f t ih =>
    simp only [List.foldl_cons]
    exact ih _ (formationStep_isSome defs mids fwds scores acc f h)

/-- With enough players of each outfield position and strictly positive
effective scores, the formation search always finds a lineup: the first
formation (1,3,4,3) already beats the initial best score of 0. -/
theorem formationFold_some_of_pos (defs mids fwds : List Player)
    (scores : ℤ → Option ℚ)
    (hd : 3 ≤ defs.length) (hm : 4 ≤ mids.length) (hfw : 3 ≤ fwds.length)
    (hpos : ∀ p, (p ∈ defs ∨ p ∈ mids ∨ p ∈ fwds) → 0 < effScore scores p) :
    ((validFormations.foldl (formationStep defs mids fwds scores)
      ⟨0, none⟩).best).isSome = true := by
  rw [validFormations, List.foldl_cons]
  refine formationFold_isSome defs mids fwds scores _ _ ?_
  unfold formationStep
  dsimp only
  rw [if_neg (by
    simp only [Bool.or_eq_true, decide_eq_true_eq, not_or]
    omega)]
  have hgt : ((List.take (Int.toNat 3) defs ++ List.take (Int.toNat 4) mids ++
      List.take (Int.toNat 3) fwds).map (effScore scores)).sum > 0 := by
    refine List.sum_pos _ (fun x hx => ?_) ?_
    · obtain ⟨p, hp, rfl⟩ := List.mem_map.mp hx
      simp only [List.mem_append] at hp
      rcases hp with (hp | hp) | hp
      · exact hpos p (Or.inl (List.mem_of_mem_take hp))
      · exact hpos p (Or.inr (Or.inl (List.mem_of_mem_take hp)))
      · exact hpos p (Or.inr (Or.inr (List.mem_of_mem_take hp)))
    · intro habs
      have hlen := congrArg List.length habs
      simp only [List.length_map, List.length_append, List.length_take,
        List.length_nil] at hlen
      omega
  rw [if_pos hgt]
  rfl

/-- The behaviour of `select_starting_eleven` on a valid squad whose effective
scores are all strictly positive: exactly one goalkeeper starts, the outfield
starters realise one of the enumerated valid formations, and the bench is
exactly the remaining four players with the backup goalkeeper LAST. -/
theorem selectStartingEleven_spec (players : List Player) (scores : ℤ → Option ℚ)
    (helem : ∀ p ∈ players, p.elementType = 1 ∨ p.elementType = 2 ∨
      p.elementType = 3 ∨ p.elementType = 4)
    (h1 : (players.filter (fun p => p.elementType == 1)).length = 2)
    (h2 : (players.filter (fun p => p.elementType == 2)).length = 5)
    (h3 : (players.filter (fun p => p.elementType == 3)).length = 5)
    (h4 : (players.filter (fun p => p.elementType == 4)).length = 3)
    (hpos : ∀ p ∈ players, 0 < effScore scores p) :
    ∃ f, (selectStartingEleven players scores).2.2 = some f ∧
      f ∈ validFormations ∧
      (selectStartingEleven players scores).1.length = 11 ∧
      ((selectStartingEleven players scores).1.filter
        (fun p => p.elementType == 1)).length = 1 ∧
      ((selectStartingEleven players scores).1.filter
        (fun p => p.elementType == 2)).length = f.2.1.toNat ∧
      ((selectStartingEleven players scores).1.filter
        (fun p => p.elementType == 3)).length = f.2.2.1.toNat ∧
      ((selectStartingEleven players scores).1.filter
        (fun p => p.elementType == 4)).length = f.2.2.2.toNat ∧
      (selectStartingEleven players scores).2.1.length = 4 ∧
      List.Perm ((selectStartingEleven players scores).1 ++
        (selectStartingEleven players scores).2.1) players ∧
      ∃ g, ((selectStartingEleven players scores).2.1).getLast? = some g ∧
        g.elementType = 1 := by
  have hgkl : (positionSorted players scores 1).length = 2 := by
    rw [positionSorted, sortDesc_length, h1]
  have hdl : (positionSorted players scores 2).length = 5 := by
    rw [positionSorted, sortDesc_length, h2]
  have hml : (positionSorted players scores 3).length = 5 := by
    rw [positionSorted, sortDesc_length, h3]
  have hfl : (positionSorted players scores 4).length = 3 := by
    rw [positionSorted, sortDesc_length, h4]
  have hmemtype : ∀ (t : ℤ) (p : Player), p ∈ positionSorted players scores t →
      p ∈ players ∧ p.elementType = t := by
    intro t p hp
    rw [positionSorted, mem_sortDesc] at hp
    exact ⟨List.mem_of_mem_filter hp, by simpa using List.of_mem_filter hp⟩
  have hsome := formationFold_some_of_pos (positionSorted players scores 2)
    (positionSorted players scores 3) (positionSorted players scores 4) scores
    (by omega) (by omega) (by omega)
    (fun p hp => by
      rcases hp with hp | hp | hp <;> exact hpos p (hmemtype _ p hp).1)
  have hinv := formationFold_inv (positionSorted players scores 2)
    (positionSorted players scores 3) (positionSorted players scores 4) scores
    validFormations (fun f hf => hf) ⟨0, none⟩ (Or.inl rfl)
  rcases hinv with hnone | ⟨f, lineup, hbest, hfvalid, hdfle, hmdle, hfwle, hlineup⟩
  · rw [hnone] at hsome
    simp at hsome
  obtain ⟨-, hsum10, hd5, hm5, hf3, -⟩ := validFormation_facts f hfvalid
  have hge2 : (positionSorted players scores 1).length ≥ 2 := by omega
  have hsel : selectStartingEleven players scores =
      ((positionSorted players scores 1).take 1 ++ lineup,
       (sortDesc (effScore scores)
         ((((positionSorted players scores 1).drop 1).take 1 ++
           (positionSorted players scores 2).drop f.2.1.toNat ++
           (positionSorted players scores 3).drop f.2.2.1.toNat ++
           (positionSorted players scores 4).drop f.2.2.2.toNat).filter
           (fun p => p.elementType != 1))).take 3 ++
       ((((positionSorted players scores 1).drop 1).take 1 ++
         (positionSorted players scores 2).drop f.2.1.toNat ++
         (positionSorted players scores 3).drop f.2.2.1.toNat ++
         (positionSorted players scores 4).drop f.2.2.2.toNat).filter
         (fun p => p.elementType == 1)),
       some f) := by
    rw [show selectStartingEleven players scores =
      selectFinish scores (positionSorted players scores 1)
        (positionSorted players scores 2) (positionSorted players scores 3)
        (positionSorted players scores 4)
        ((validFormations.foldl (formationStep (positionSorted players scores 2)
          (positionSorted players scores 3) (positionSorted players scores 4)
          scores) ⟨0, none⟩).best) from rfl]
    rw [hbest]
    unfold selectFinish
    dsimp only
    rw [if_pos hge2, if_pos hge2]
  have hb0 : ((positionSorted players scores 1).drop 1).take 1 =
      (positionSorted players scores 1).drop 1 :=
    List.take_of_length_le (by rw [List.length_drop, hgkl])
  obtain ⟨g, hg⟩ : ∃ g, (positionSorted players scores 1).drop 1 = [g] :=
    List.length_eq_one.mp (by rw [List.length_drop, hgkl])
  have hgtype : g.elementType = 1 :=
    (hmemtype 1 g (List.drop_subset 1 _ (hg ▸ List.mem_singleton_self g))).2
  have hd2 : ∀ p ∈ (positionSorted players scores 2).drop f.2.1.toNat,
      p.elementType = 2 := fun p hp => (hmemtype 2 p (List.drop_subset _ _ hp)).2
  have hm2 : ∀ p ∈ (positionSorted players scores 3).drop f.2.2.1.toNat,
      p.elementType = 3 := fun p hp => (hmemtype 3 p (List.drop_subset _ _ hp)).2
  have hf2 : ∀ p ∈ (positionSorted players scores 4).drop f.2.2.2.toNat,
      p.elementType = 4 := fun p hp => (hmemtype 4 p (List.drop_subset _ _ hp)).2
  have hfilterout : ((((positionSorted players scores 1).drop 1).take 1 ++
      (positionSorted players scores 2).drop f.2.1.toNat ++
      (positionSorted players scores 3).drop f.2.2.1.toNat ++
      (positionSorted players scores 4).drop f.2.2.2.toNat).filter
      (fun p => p.elementType != 1)) =
      (positionSorted players scores 2).drop f.2.1.toNat ++
      (positionSorted players scores 3).drop f.2.2.1.toNat ++
      (positionSorted players scores 4).drop f.2.2.2.toNat := by
    rw [hb0, hg, List.filter_append, List.filter_append, List.filter_append]
    rw [show ([g].filter (fun p => p.elementType != 1)) = [] from by
      simp [hgtype]]
    rw [List.filter_eq_self.mpr (fun p hp => by simp [hd2 p hp]),
      List.filter_eq_self.mpr (fun p hp => by simp [hm2 p hp]),
      List.filter_eq_self.mpr (fun p hp => by simp [hf2 p hp])]
    simp
  have hfiltergk : ((((positionSorted players scores 1).drop 1).take 1 ++
      (positionSorted players scores 2).drop f.2.1.toNat ++
      (positionSorted players scores 3).drop f.2.2.1.toNat ++
      (positionSorted players scores 4).drop f.2.2.2.toNat).filter
      (fun p => p.elementType == 1)) = [g] := by
    rw [hb0, hg, List.filter_append, List.filter_append, List.filter_append]
    rw [show ([g].filter (fun p => p.elementType == 1)) = [g] from by
      simp [hgtype]]
    rw [List.filter_eq_nil_iff.mpr (fun p hp hb => by
        have := hd2 p hp; rw [beq_iff_eq] at hb; omega),
      List.filter_eq_nil_iff.mpr (fun p hp hb => by
        have := hm2 p hp; rw [beq_iff_eq] at hb; omega),
      List.filter_eq_nil_iff.mpr (fun p hp hb => by
        have := hf2 p hp; rw [beq_iff_eq] at hb; omega)]
    simp
  have houtlen : ((positionSorted players scores 2).drop f.2.1.toNat ++
      (positionSorted players scores 3).drop f.2.2.1.toNat ++
      (positionSorted players scores 4).drop f.2.2.2.toNat).length = 3 := by
    simp only [List.length_append, List.length_drop]
    omega
  have hsortlen : (sortDesc (effScore scores)
      ((positionSorted players scores 2).drop f.2.1.toNat ++
       (positionSorted players scores 3).drop f.2.2.1.toNat ++
       (positionSorted players scores 4).drop f.2.2.2.toNat)).length = 3 := by
    rw [sortDesc_length, houtlen]
  have htake3 : (sortDesc (effScore scores)
      ((positionSorted players scores 2).drop f.2.1.toNat ++
       (positionSorted players scores 3).drop f.2.2.1.toNat ++
       (positionSorted players scores 4).drop f.2.2.2.toNat)).take 3 =
      sortDesc (effScore scores)
      ((positionSorted players scores 2).drop f.2.1.toNat ++
       (positionSorted players scores 3).drop f.2.2.1.toNat ++
       (positionSorted players scores 4).drop f.2.2.2.toNat) :=
    List.take_of_length_le (by rw [hsortlen])
  have hsel2 : selectStartingEleven players scores =
      ((positionSorted players scores 1).take 1 ++ lineup,
       sortDesc (effScore scores)
         ((positionSorted players scores 2).drop f.2.1.toNat ++
          (positionSorted players scores 3).drop f.2.2.1.toNat ++
          (positionSorted players scores 4).drop f.2.2.2.toNat) ++ [g],
       some f) := by
    rw [hsel, hfilterout, hfiltergk, htake3]
  have hlineuplen : lineup.length = 10 := by
    rw [hlineup]
    simp only [List.length_append, List.length_take]
    omega
  have htake1type : ∀ p ∈ (positionSorted players scores 1).take 1,
      p.elementType = 1 := fun p hp => (hmemtype 1 p (List.take_subset _ _ hp)).2
  have hlin1 : ∀ p ∈ (positionSorted players scores 2).take f.2.1.toNat,
      p.elementType = 2 := fun p hp => (hmemtype 2 p (List.take_subset _ _ hp)).2
  have hlin2 : ∀ p ∈ (positionSorted players scores 3).take f.2.2.1.toNat,
      p.elementType = 3 := fun p hp => (hmemtype 3 p (List.take_subset _ _ hp)).2
  have hlin3 : ∀ p ∈ (positionSorted players scores 4).take f.2.2.2.toNat,
      p.elementType = 4 := fun p hp => (hmemtype 4 p (List.take_subset _ _ hp)).2
  have htake1len : ((positionSorted players scores 1).take 1).length = 1 := by
    rw [List.length_take]
    omega
  refine ⟨f, by rw [hsel2], hfvalid, ?_, ?_, ?_, ?_, ?_, ?_, ?_, ?_⟩
  · rw [hsel2]
    simp only [List.length_append, htake1len, hlineuplen]
  · rw [hsel2]
    simp only [List.filter_append, List.length_append]
    rw [List.filter_eq_self.mpr (fun p hp => by simp [htake1type p hp]),
      hlineup, List.filter_append, List.filter_append,
      List.filter_eq_nil_iff.mpr (fun p hp hb => by
        have := hlin1 p hp; rw [beq_iff_eq] at hb; omega),
      List.filter_eq_nil_iff.mpr (fun p hp hb => by
        have := hlin2 p hp; rw [beq_iff_eq] at hb; omega),
      List.filter_eq_nil_iff.mpr (fun p hp hb => by
        have := hlin3 p hp; rw [beq_iff_eq] at hb; omega)]
    simp [htake1len]
  · rw [hsel2]
    simp only [List.filter_append, List.length_append]
    rw [List.filter_eq_nil_iff.mpr (fun p hp hb => by
        have := htake1type p hp; rw [beq_iff_eq] at hb; omega),
      hlineup, List.filter_append, List.filter_append,
      List.filter_eq_self.mpr (fun p hp => by simp [hlin1 p hp]),
      List.filter_eq_nil_iff.mpr (fun p hp hb => by
        have := hlin2 p hp; rw [beq_iff_eq] at hb; omega),
      List.filter_eq_nil_iff.mpr (fun p hp hb => by
        have := hlin3 p hp; rw [beq_iff_eq] at hb; omega)]
    simp only [List.length_append, List.length_nil, List.length_take]
    omega
  · rw [hsel2]
    simp only [List.filter_append, List.length_append]
    rw [List.filter_eq_nil_iff.mpr (fun p hp hb => by
        have := htake1type p hp; rw [beq_iff_eq] at hb; omega),
      hlineup, List.filter_append, List.filter_append,
      List.filter_eq_nil_iff.mpr (fun p hp hb => by
        have := hlin1 p hp; rw [beq_iff_eq] at hb; omega),
      List.filter_eq_self.mpr (fun p hp => by simp [hlin2 p hp]),
      List.filter_eq_nil_iff.mpr (fun p hp hb => by
        have := hlin3 p hp; rw [beq_iff_eq] at hb; omega)]
    simp only [List.length_append, List.length_nil, List.length_take]
    omega
  · rw [hsel2]
    simp only [List.filter_append, List.length_append]
    rw [List.filter_eq_nil_iff.mpr (fun p hp hb => by
        have := htake1type p hp; rw [beq_iff_eq] at hb; omega),
      hlineup, List.filter_append, List.filter_append,
      List.filter_eq_nil_iff.mpr (fun p hp hb => by
        have := hlin1 p hp; rw [beq_iff_eq] at hb; omega),
      List.filter_eq_nil_iff.mpr (fun p hp hb => by
        have := hlin2 p hp; rw [beq_iff_eq] at hb; omega),
      List.filter_eq_self.mpr (fun p hp => by simp [hlin3 p hp])]
    simp only [List.length_append, List.length_nil, List.length_take]
    omega
  · rw [hsel2]
    simp only [List.length_append, hsortlen]
    rfl
  · rw [hsel2]
    have hstep1 : List.Perm
        (((positionSorted players scores 1).take 1 ++ lineup) ++
          (sortDesc (effScore scores)
            ((positionSorted players scores 2).drop f.2.1.toNat ++
             (positionSorted players scores 3).drop f.2.2.1.toNat ++
             (positionSorted players scores 4).drop f.2.2.2.toNat) ++ [g]))
        (((positionSorted players scores 1).take 1 ++ lineup) ++
          (((positionSorted players scores 2).drop f.2.1.toNat ++
            (positionSorted players scores 3).drop f.2.2.1.toNat ++
            (positionSorted players scores 4).drop f.2.2.2.toNat) ++ [g])) :=
      List.Perm.append (List.Perm.refl _)
        (List.Perm.append (sortDesc_perm _ _) (List.Perm.refl _))
    refine hstep1.trans ?_
    have hplayers := filter_partition_perm players helem
    have pg : List.Perm (positionSorted players scores 1)
        (players.filter (fun p => p.elementType == 1)) := by
      rw [positionSorted]
      exact sortDesc_perm _ _
    have pd : List.Perm (positionSorted players scores 2)
        (players.filter (fun p => p.elementType == 2)) := by
      rw [positionSorted]
      exact sortDesc_perm _ _
    have pm : List.Perm (positionSorted players scores 3)
        (players.filter (fun p => p.elementType == 3)) := by
      rw [positionSorted]
      exact sortDesc_perm _ _
    have pf : List.Perm (positionSorted players scores 4)
        (players.filter (fun p => p.elementType == 4)) := by
      rw [positionSorted]
      exact sortDesc_perm _ _
    rw [← Multiset.coe_eq_coe]
    rw [← Multiset.coe_eq_coe] at hplayers
    rw [hlineup, ← hg]
    simp only [← Multiset.coe_add] at hplayers ⊢
    rw [← hplayers]
    have egk : ((positionSorted players scores 1 : List Player) : Multiset Player) =
        ((players.filter (fun p => p.elementType == 1) : List Player) :
          Multiset Player) := Multiset.coe_eq_coe.mpr pg
    have ed : ((positionSorted players scores 2 : List Player) : Multiset Player) =
        ((players.filter (fun p => p.elementType == 2) : List Player) :
          Multiset Player) := Multiset.coe_eq_coe.mpr pd
    have em : ((positionSorted players scores 3 : List Player) : Multiset Player) =
        ((players.filter (fun p => p.elementType == 3) : List Player) :
          Multiset Player) := Multiset.coe_eq_coe.mpr pm
    have ef : ((positionSorted players scores 4 : List Player) : Multiset Player) =
        ((players.filter (fun p => p.elementType == 4) : List Player) :
          Multiset Player) := Multiset.coe_eq_coe.mpr pf
    rw [← egk, ← ed, ← em, ← ef]
    have sgk : ((positionSorted players scores 1 : List Player) : Multiset Player) =
        (((positionSorted players scores 1).take 1 : List Player) : Multiset Player) +
        (((positionSorted players scores 1).drop 1 : List Player) : Multiset Player) := by
      rw [Multiset.coe_add, List.take_append_drop]
    have sd : ((positionSorted players scores 2 : List Player) : Multiset Player) =
        (((positionSorted players scores 2).take f.2.1.toNat : List Player) :
          Multiset Player) +
        (((positionSorted players scores 2).drop f.2.1.toNat : List Player) :
          Multiset Player) := by
      rw [Multiset.coe_add, List.take_append_drop]
    have sm : ((positionSorted players scores 3 : List Player) : Multiset Player) =
        (((positionSorted players scores 3).take f.2.2.1.toNat : List Player) :
          Multiset Player) +
        (((positionSorted players scores 3).drop f.2.2.1.toNat : List Player) :
          Multiset Player) := by
      rw [Multiset.coe_add, List.take_append_drop]
    have sf : ((positionSorted players scores 4 : List Player) : Multiset Player) =
        (((positionSorted players scores 4).take f.2.2.2.toNat : List Player) :
          Multiset Player) +
        (((positionSorted players scores 4).drop f.2.2.2.toNat : List Player) :
          Multiset Player) := by
      rw [Multiset.coe_add, List.take_append_drop]
    rw [sgk, sd, sm, sf]
    abel
  · rw [hsel2]
    exact ⟨g, List.getLast?_concat _, hgtype⟩

/-- The behaviour of `optimize_starting_xi` plus `_order_bench` under the
encoded XI constraints: 11 starters matching the squad's formation with
exactly one starting goalkeeper, a bench of the remaining 4 — but ordered with
the backup goalkeeper FIRST, not last. -/
theorem startingXi_orderBench_spec (players : List Player)
    (formation : ℤ × ℤ × ℤ × ℤ) (σ : ℤ → Bool) (preds : ℤ → Option ℚ)
    (hlen : players.length = 15)
    (h1 : (players.filter (fun p => p.elementType == 1)).length = 2)
    (hvalid : formation ∈ validFormations)
    (h : startingXiConstraints players formation σ = true) :
    (selectedPlayers players σ).length = 11 ∧
    selectedCountOfType players σ 1 = 1 ∧
    (selectedCountOfType players σ 2 : ℤ) = formation.2.1 ∧
    (selectedCountOfType players σ 3 : ℤ) = formation.2.2.1 ∧
    (selectedCountOfType players σ 4 : ℤ) = formation.2.2.2 ∧
    (xiBench players σ).length = 4 ∧
    ∃ g rest, orderBench (xiBench players σ) preds = g :: rest ∧
      g.elementType = 1 ∧ rest.length = 3 ∧ ∀ q ∈ rest, q.elementType ≠ 1 := by
  simp only [startingXiConstraints, Bool.and_eq_true, beq_iff_eq,
    decide_eq_true_eq] at h
  obtain ⟨⟨⟨⟨h11, hc1⟩, hc2⟩, hc3⟩, hc4⟩ := h
  have hone : formation.1 = 1 := (validFormation_facts formation hvalid).2.2.2.2.2
  have hcount1 : selectedCountOfType players σ 1 = 1 := by
    rw [hone] at hc1
    exact_mod_cast hc1
  have h11' : (players.filter (fun p => σ p.id)).length = 11 := h11
  have hbench4 : (xiBench players σ).length = 4 := by
    have hsplit := length_filter_add_length_filter_not players (fun p => σ p.id)
    simp only at hsplit
    rw [xiBench]
    omega
  have hcount1' : ((players.filter (fun p => σ p.id)).filter
      (fun p => p.elementType == 1)).length = 1 := hcount1
  have hAσ : ((players.filter (fun p => p.elementType == 1)).filter
      (fun p => σ p.id)).length = 1 := by
    rw [List.filter_comm]
    exact hcount1'
  have hsplitgk := length_filter_add_length_filter_not
    (players.filter (fun p => p.elementType == 1)) (fun p => σ p.id)
  simp only at hsplitgk
  have hbenchgk : ((xiBench players σ).filter
      (fun p => p.elementType == 1)).length = 1 := by
    rw [xiBench, ← List.filter_comm]
    omega
  obtain ⟨g, hg⟩ := List.length_eq_one.mp hbenchgk
  have hgtype : g.elementType = 1 := by
    have hmem : g ∈ (xiBench players σ).filter (fun p => p.elementType == 1) :=
      hg ▸ List.mem_singleton_self g
    simpa using List.of_mem_filter hmem
  have hbne : (fun (p : Player) => p.elementType != 1) =
      (fun (p : Player) => !(p.elementType == 1)) := rfl
  have hrestlen : ((xiBench players σ).filter
      (fun p => p.elementType != 1)).length = 3 := by
    rw [hbne]
    have hsplitb := length_filter_add_length_filter_not (xiBench players σ)
      (fun p => p.elementType == 1)
    simp only at hsplitb
    omega
  have horder : orderBench (xiBench players σ) preds =
      g :: sortDesc (fun p => (preds p.id).getD 0)
        ((xiBench players σ).filter (fun p => p.elementType != 1)) := by
    rw [show orderBench (xiBench players σ) preds =
      ((xiBench players σ).filter (fun p => p.elementType == 1)) ++
        sortDesc (fun p => (preds p.id).getD 0)
          ((xiBench players σ).filter (fun p => p.elementType != 1)) from rfl]
    rw [hg]
    rfl
  refine ⟨h11, hcount1, hc2, hc3, hc4, hbench4,
    g, sortDesc (fun p => (preds p.id).getD 0)
      ((xiBench players σ).filter (fun p => p.elementType != 1)),
    horder, hgtype, ?_, ?_⟩
  · rw [sortDesc_length, hrestlen]
  · intro q hq
    have hmem := mem_sortDesc.mp hq
    have := List.of_mem_filter hmem
    simpa [bne_iff_ne] using this

/-- C4 (amended): for a 15-player squad with position counts {2, 5, 5, 3}:
(a) `select_starting_eleven` — whenever every effective score is strictly
positive (so that some formation beats the initial best score of 0) — returns
exactly 1 starting goalkeeper, 10 outfield starters realising one of the
enumerated valid formations, and a bench that is exactly the remaining 4
players with the backup goalkeeper LAST; (b) `optimize_starting_xi` returns 11
starters matching the squad's valid formation with exactly 1 starting
goalkeeper and a bench of the remaining 4, but `_order_bench` places the bench
goalkeeper FIRST, not last. -/
theorem lineup_selection_structure
    (players : List Player) (scores : ℤ → Option ℚ)
    (helem : ∀ p ∈ players, p.elementType = 1 ∨ p.elementType = 2 ∨
      p.elementType = 3 ∨ p.elementType = 4)
    (h1 : (players.filter (fun p => p.elementType == 1)).length = 2)
    (h2 : (players.filter (fun p => p.elementType == 2)).length = 5)
    (h3 : (players.filter (fun p => p.elementType == 3)).length = 5)
    (h4 : (players.filter (fun p => p.elementType == 4)).length = 3)
    (hpos : ∀ p ∈ players, 0 < effScore scores p)
    (players' : List Player) (formation' : ℤ × ℤ × ℤ × ℤ) (σ' : ℤ → Bool)
    (preds' : ℤ → Option ℚ)
    (hlen' : players'.length = 15)
    (h1' : (players'.filter (fun p => p.elementType == 1)).length = 2)
    (hvalid' : formation' ∈ validFormations)
    (h' : startingXiConstraints players' formation' σ' = true) :
    (∃ f, (selectStartingEleven players scores).2.2 = some f ∧
      f ∈ validFormations ∧
      (selectStartingEleven players scores).1.length = 11 ∧
      ((selectStartingEleven players scores).1.filter
        (fun p => p.elementType == 1)).length = 1 ∧
      ((selectStartingEleven players scores).1.filter
        (fun p => p.elementType == 2)).length = f.2.1.toNat ∧
      ((selectStartingEleven players scores).1.filter
        (fun p => p.elementType == 3)).length = f.2.2.1.toNat ∧
      ((selectStartingEleven players scores).1.filter
        (fun p => p.elementType == 4)).length = f.2.2.2.toNat ∧
      (selectStartingEleven players scores).2.1.length = 4 ∧
      List.Perm ((selectStartingEleven players scores).1 ++
        (selectStartingEleven players scores).2.1) players ∧
      ∃ g, ((selectStartingEleven players scores).2.1).getLast? = some g ∧
        g.elementType = 1) ∧
    ((selectedPlayers players' σ').length = 11 ∧
      selectedCountOfType players' σ' 1 = 1 ∧
      (selectedCountOfType players' σ' 2 : ℤ) = formation'.2.1 ∧
      (selectedCountOfType players' σ' 3 : ℤ) = formation'.2.2.1 ∧
      (selectedCountOfType players' σ' 4 : ℤ) = formation'.2.2.2 ∧
      (xiBench players' σ').length = 4 ∧
      ∃ g rest, orderBench (xiBench players' σ') preds' = g :: rest ∧
        g.elementType = 1 ∧ rest.length = 3 ∧ ∀ q ∈ rest, q.elementType ≠ 1) :=
  ⟨selectStartingEleven_spec players scores helem h1 h2 h3 h4 hpos,
   startingXi_orderBench_spec players' formation' σ' preds' hlen' h1' hvalid' h'⟩

/-- The solver assignment selecting the 4-4-2 starting eleven of
`feasiblePool` (goalkeeper 1, defenders 3-6, midfielders 8-11,
forwards 13-14). -/
def xiAssign : ℤ → Bool :=
  fun i => ([1, 3, 4, 5, 6, 8, 9, 10, 11, 13, 14] : List ℤ).contains i

/-- Counterexample for C4: under the encoded `optimize_starting_xi`
constraints the bench of the concrete feasible squad is {GK 2, DEF 7, MID 12,
FWD 15}, and `_order_bench` returns the goalkeeper FIRST — the last bench slot
is the forward, contradicting "the backup goalkeeper is placed last". -/
theorem order_bench_gk_first_counterexample :
    startingXiConstraints feasiblePool (1, 4, 4, 2) xiAssign = true ∧
    orderBench (xiBench feasiblePool xiAssign) (fun _ => none) =
      [poolPlayer 2 2 1 40, poolPlayer 7 7 2 60, poolPlayer 12 12 3 60,
       poolPlayer 15 15 4 60] ∧
    (orderBench (xiBench feasiblePool xiAssign) (fun _ => none)).getLast? =
      some (poolPlayer 15 15 4 60) ∧
    (poolPlayer 15 15 4 60).elementType ≠ 1 ∧
    (poolPlayer 2 2 1 40).elementType = 1 := by
  have hbench : xiBench feasiblePool xiAssign =
      [poolPlayer 2 2 1 40, poolPlayer 7 7 2 60, poolPlayer 12 12 3 60,
       poolPlayer 15 15 4 60] := by decide
  have horder : orderBench (xiBench feasiblePool xiAssign) (fun _ => none) =
      [poolPlayer 2 2 1 40, poolPlayer 7 7 2 60, poolPlayer 12 12 3 60,
       poolPlayer 15 15 4 60] := by
    rw [orderBench, hbench]
    norm_num [sortDesc, insertDesc, poolPlayer, List.filter_cons]
  refine ⟨by decide, horder, ?_, by decide, by decide⟩
  rw [horder]
  rfl

/-- Witness for C4: both parts evaluated on the concrete feasible pool (all
effective scores 10 for part (a); the 4-4-2 assignment for part (b)). -/
theorem lineup_selection_structure_witness :
    (∃ f, (selectStartingEleven feasiblePool (fun _ => some 10)).2.2 = some f ∧
      f ∈ validFormations ∧
      (selectStartingEleven feasiblePool (fun _ => some 10)).1.length = 11 ∧
      ((selectStartingEleven feasiblePool (fun _ => some 10)).1.filter
        (fun p => p.elementType == 1)).length = 1 ∧
      ((selectStartingEleven feasiblePool (fun _ => some 10)).1.filter
        (fun p => p.elementType == 2)).length = f.2.1.toNat ∧
      ((selectStartingEleven feasiblePool (fun _ => some 10)).1.filter
        (fun p => p.elementType == 3)).length = f.2.2.1.toNat ∧
      ((selectStartingEleven feasiblePool (fun _ => some 10)).1.filter
        (fun p => p.elementType == 4)).length = f.2.2.2.toNat ∧
      (selectStartingEleven feasiblePool (fun _ => some 10)).2.1.length = 4 ∧
      List.Perm ((selectStartingEleven feasiblePool (fun _ => some 10)).1 ++
        (selectStartingEleven feasiblePool (fun _ => some 10)).2.1)
        feasiblePool ∧
      ∃ g, ((selectStartingEleven feasiblePool
        (fun _ => some 10)).2.1).getLast? = some g ∧ g.elementType = 1) ∧
    ((selectedPlayers feasiblePool xiAssign).length = 11 ∧
      selectedCountOfType feasiblePool xiAssign 1 = 1 ∧
      (selectedCountOfType feasiblePool xiAssign 2 : ℤ) =
        ((1, 4, 4, 2) : ℤ × ℤ × ℤ × ℤ).2.1 ∧
      (selectedCountOfType feasiblePool xiAssign 3 : ℤ) =
        ((1, 4, 4, 2) : ℤ × ℤ × ℤ × ℤ).2.2.1 ∧
      (selectedCountOfType feasiblePool xiAssign 4 : ℤ) =
        ((1, 4, 4, 2) : ℤ × ℤ × ℤ × ℤ).2.2.2 ∧
      (xiBench feasiblePool xiAssign).length = 4 ∧
      ∃ g rest, orderBench (xiBench feasiblePool xiAssign) (fun _ => none) =
        g :: rest ∧ g.elementType = 1 ∧ rest.length = 3 ∧
        ∀ q ∈ rest, q.elementType ≠ 1) :=
  lineup_selection_structure feasiblePool (fun _ => some 10)
    (by decide) (by decide) (by decide) (by decide) (by decide)
    (by intro p hp; norm_num [effScore])
    feasiblePool (1, 4, 4, 2) xiAssign (fun _ => none)
    (by decide) (by decide) (by decide) (by decide)

end FPL
